import Mathlib

set_option linter.unusedVariables false

/-!
Shallow embedding of the NebulaGraph Desktop service supervisor.

The repository ships two revisions of the supervisor:

* the current tree `src/electron/main/services/docker-service.ts` together
  with the second half of `src/electron/main/services/docker-checker.ts`
  (the revision that resolves the docker binary path and routes commands
  through `execCommand`); definitions embedding this revision carry the
  suffix `Main` (checker: suffix `B`);
* a legacy tree preserved in `src/unnamed/part_008` (its `DockerService`)
  together with the first half of `docker-checker.ts`; definitions
  embedding this revision carry the suffix `L` (checker: suffix `V1`).

External effects (child-process `exec`, the filesystem, `JSON.parse`,
`Date.now`, timers) are modelled by an `Env` oracle plus an explicit
`World` state.  Each external command invocation is recorded in
`World.trace` as a typed `Cmd` value mirroring the exact command string the
source builds.  The docker engine's local image store is part of `World`
(`World.images`): `docker image inspect` succeeds exactly when the image is
present, and `docker load -i tar` adds the images contained in the archive
(`Env.archive`).  Results of every other command are supplied by the
environment and are stationary during a call, which models a deterministic
snapshot of the outside world.  `Date.now()` / `toISOString()` timestamps
are modelled by the natural number `World.now`, advanced by the embedded
`setTimeout` waits.
-/

/-- Operating system platform, mirroring `process.platform` values the
source branches on. -/
inductive Platform
  | darwin
  | win32
  | linux
deriving DecidableEq

/-- Health verdicts, the union of the source's health string unions
(`'healthy' | 'unhealthy' | 'starting' | 'unknown' | 'not_created'`). -/
inductive Health
  | healthy
  | unhealthy
  | starting
  | unknown
  | notCreated
deriving DecidableEq

/-- Container lifecycle status as used in `ServiceStatus.status`
(`'running' | 'stopped' | 'error' | 'not_created'`). -/
inductive LifeStatus
  | running
  | stopped
  | error
  | notCreated
deriving DecidableEq

/-- The `health` record inside `ServiceStatus`; `lastCheck` (an ISO
timestamp string in the source) is modelled by the clock value `World.now`
at creation time. -/
structure HealthRec where
  status : Health
  lastCheck : Nat
  failureCount : Nat
deriving DecidableEq

/-- The `metrics` record of `ServiceStatus` (`cpu`, `memory`, `network`
strings parsed out of `docker stats` output). -/
structure Metrics where
  cpu : String
  memory : String
  network : String
deriving DecidableEq

/-- `ServiceStatus` from `docker-service.ts` (both revisions). -/
structure ServiceStatus where
  name : String
  status : LifeStatus
  health : HealthRec
  metrics : Option Metrics
  ports : List String
  logs : List String
deriving DecidableEq

/-- `ServiceConfig` from `docker-service.ts` (identical in both
revisions). -/
structure ServiceConfig where
  name : String
  displayName : String
  ports : List String
  healthCheckPort : Nat
  requiredPorts : List Nat
  dependencies : List String
deriving DecidableEq

/-- `DockerComposeStatus` from `docker-checker.ts`. -/
structure ComposeStatus where
  isInstalled : Bool
  version : Option String
deriving DecidableEq

/-- `DockerSystemStatus` from `docker-checker.ts`. -/
structure SysStatus where
  isInstalled : Bool
  isRunning : Bool
  version : Option String
  compose : Option ComposeStatus
  error : Option String
deriving DecidableEq

/-- The `{ success, error? }` result returned by the lifecycle
operations. -/
structure StartResult where
  success : Bool
  error : Option String
deriving DecidableEq

/-- Typed image of the exact external command strings the source builds;
one constructor per distinct `exec` invocation shape. -/
inductive Cmd
  | dockerVersion
  | dockerInfo
  | composeVersion
  | composeLegacyVersion
  | whichDocker
  | imageInspect (image : String)
  | imageLoad (archive : String)
  | composeUp
  | composeUpFileCmd
  | composePs
  | inspectCmd (container : String)
  | healthFmt (container : String)
  | psStatusCmd (container : String)
  | statsCmd (container : String)
  | curlCmd (port : Nat)
deriving DecidableEq

/-- Image-store-sensitive commands (`docker image inspect`,
`docker load`). -/
def isImageCmd : Cmd → Bool
  | .imageInspect _ => true
  | .imageLoad _ => true
  | _ => false

/-- Commands that load images into the engine. -/
def isLoadCmd : Cmd → Bool
  | .imageLoad _ => true
  | _ => false

/-- The mutable process-wide state: the `DockerService` static fields,
the checker's cached docker binary path, the engine's local image store,
a clock, and the trace of issued external commands. -/
structure World where
  now : Nat
  trace : List Cmd
  images : List String
  servicesStarting : Bool
  lastServiceStatus : List (String × ServiceStatus)
  imageCheckCache : Option (Nat × Bool)
  composeFileCache : Option (String × Nat × Bool)
  dockerPath : Option String
deriving DecidableEq

/-- The deterministic environment: results of external commands, the
filesystem, and the JSON parser.  `cmdOk c = false` means executing `c`
rejects (non-zero exit); `out c` is its captured stdout (raw, untrimmed);
`errMsg c` the message of the rejection error.  `jsonRunning s` is the
result of `JSON.parse(s)[0]?.State?.Running === true` (`none` = the parse
throws).  `manifest` is the parsed image manifest (`none` = unreadable),
`archive p` the set of image names contained in the tar at `p`. -/
structure Env where
  platform : Platform
  cmdOk : Cmd → Bool
  out : Cmd → String
  errMsg : Cmd → String
  jsonRunning : String → Option Bool
  fsOk : String → Bool
  composeContentOk : Bool
  manifest : Option (List (String × String × String))
  archive : String → List String
  initOk : Bool

/-- Results of an effectful step: normal value or a thrown error
(promise rejection), carrying the error message. -/
inductive MRes (α : Type)
  | ok (a : α)
  | err (e : String)
deriving DecidableEq

/-- The effect monad: explicit state passing over `World`, with
exceptions that preserve the state at the throw point (as JS exceptions
do). -/
def M (α : Type) : Type := World → MRes α × World

/-- Monadic return for `M`. -/
def M.pure (a : α) : M α := fun w => (.ok a, w)

/-- Monadic bind for `M`: errors short-circuit, state threads through. -/
def M.bind (x : M α) (f : α → M β) : M β := fun w =>
  match x w with
  | (.ok a, w') => f a w'
  | (.err e, w') => (.err e, w')

instance : Monad M where
  pure := M.pure
  bind := M.bind

/-- `throw` (promise rejection) in `M`. -/
def mThrow (e : String) : M α := fun w => (.err e, w)

/-- `try x catch e -> h e` in `M`. -/
def attempt (x : M α) (h : String → M α) : M α := fun w =>
  match x w with
  | (.ok a, w') => (.ok a, w')
  | (.err e, w') => h e w'

/-- Read the current world. -/
def getW : M World := fun w => (.ok w, w)

/-- Update the current world. -/
def modifyW (f : World → World) : M Unit := fun w => (.ok (), f w)

/-- `try { x } catch { return none }`, keeping the value on success. -/
def tryOpt (x : M α) : M (Option α) :=
  attempt (M.bind x fun a => M.pure (some a)) (fun _ => M.pure none)

/-- Run `x`, reifying success or failure as a value. -/
def tryRes (x : M α) : M (MRes α) :=
  attempt (M.bind x fun a => M.pure (.ok a)) (fun e => M.pure (.err e))

/-- `await new Promise(resolve => setTimeout(resolve, ms))`: time
advances. -/
def sleepM (ms : Nat) : M Unit := modifyW (fun w => { w with now := w.now + ms })

/-- Execute one external command: record it in the trace, then produce
its outcome.  Image commands consult/update the engine image store; all
other commands are answered by the environment. -/
def execCmd (env : Env) (c : Cmd) : M String := fun w =>
  let w1 : World := { w with trace := w.trace ++ [c] }
  match c with
  | .imageInspect img =>
      if img ∈ w1.images then (.ok (env.out c), w1) else (.err (env.errMsg c), w1)
  | .imageLoad ar =>
      if env.cmdOk c then
        (.ok (env.out c), { w1 with images := w1.images ++ env.archive ar })
      else (.err (env.errMsg c), w1)
  | _ =>
      if env.cmdOk c then (.ok (env.out c), w1) else (.err (env.errMsg c), w1)

/-- Whitespace for trimming (space, tab, newline, carriage return). -/
def isWsChar (c : Char) : Bool :=
  c = ' ' ∨ c = '\t' ∨ c = '\n' ∨ c = '\r'

/-- Structurally recursive `trim` (strip leading and trailing
whitespace), mirroring `String.prototype.trim` and `String.trim`. -/
def jsTrim (s : String) : String :=
  ⟨((s.data.dropWhile isWsChar).reverse.dropWhile isWsChar).reverse⟩

/-- Lower-case one character (ASCII, as the compared literals are). -/
def lcChar (c : Char) : Char :=
  if 65 ≤ c.toNat ∧ c.toNat ≤ 90 then Char.ofNat (c.toNat + 32) else c

/-- Structurally recursive `toLowerCase`. -/
def jsToLower (s : String) : String := ⟨s.data.map lcChar⟩

/-- Does the character list start with the pattern? -/
def startsWithChars : List Char → List Char → Bool
  | [], _ => true
  | _ :: _, [] => false
  | p :: ps, c :: cs => p = c && startsWithChars ps cs

/-- Does the character list contain the pattern as a contiguous
sublist? -/
def containsChars (pat : List Char) : List Char → Bool
  | [] => pat.isEmpty
  | c :: cs => startsWithChars pat (c :: cs) || containsChars pat cs

/-- JS `String.prototype.includes`. -/
def jsInc (s pat : String) : Bool := containsChars pat.data s.data

/-- JS `s || d` for strings (empty string is falsy). -/
def jsOr (s d : String) : String := if s = "" then d else s

/-- Split on a single-character separator, mirroring
`String.prototype.split` with a one-character argument. -/
def splitCharAux (sep : Char) : List Char → List Char → List (List Char)
  | [], acc => [acc.reverse]
  | c :: rest, acc =>
      if c = sep then acc.reverse :: splitCharAux sep rest []
      else splitCharAux sep rest (c :: acc)

/-- Split a string on a single-character separator. -/
def splitChar (s : String) (sep : Char) : List String :=
  (splitCharAux sep s.data []).map (⟨·⟩)

/-- Remove the first occurrence of a character. -/
def dropFirstChar (sep : Char) : List Char → List Char
  | [] => []
  | c :: rest => if c = sep then rest else c :: dropFirstChar sep rest

/-- JS `s.replace('%', '')`: remove the first occurrence of `%`. -/
def dropFirstPercent (s : String) : String := ⟨dropFirstChar '%' s.data⟩

/-- `cpu?.replace('%', '') || '0'` applied to the `;`-split stats
output. -/
def metricCpu (parts : List String) : String :=
  match parts.get? 0 with
  | none => "0"
  | some c => jsOr (dropFirstPercent c) "0"

/-- `mem?.split('/')[0].trim() || '0'`. -/
def metricMem (parts : List String) : String :=
  match parts.get? 1 with
  | none => "0"
  | some m => jsOr (jsTrim ((splitChar m '/').headD "")) "0"

/-- `net || '0'`. -/
def metricNet (parts : List String) : String :=
  match parts.get? 2 with
  | none => "0"
  | some n => jsOr n "0"

/-! ## Service topology (identical table in both revisions) -/

/-- `serviceConfigs.metad`. -/
def cfgMetad : ServiceConfig :=
  { name := "metad", displayName := "Meta Service",
    ports := ["9559", "19559", "11000"], healthCheckPort := 11000,
    requiredPorts := [9559, 19559, 11000], dependencies := [] }

/-- `serviceConfigs.storaged`. -/
def cfgStoraged : ServiceConfig :=
  { name := "storaged", displayName := "Storage Service",
    ports := ["9779", "19779", "12000"], healthCheckPort := 12000,
    requiredPorts := [9779, 19779, 12000], dependencies := ["metad"] }

/-- `serviceConfigs.graphd`. -/
def cfgGraphd : ServiceConfig :=
  { name := "graphd", displayName := "Graph Service",
    ports := ["9669", "19669", "13000"], healthCheckPort := 13000,
    requiredPorts := [9669, 19669, 13000], dependencies := ["metad", "storaged"] }

/-- `serviceConfigs.studio`. -/
def cfgStudio : ServiceConfig :=
  { name := "studio", displayName := "Studio",
    ports := ["7001"], healthCheckPort := 7001,
    requiredPorts := [7001], dependencies := ["graphd"] }

/-- `this.serviceConfigs`, in `Object.entries` (insertion) order. -/
def serviceConfigs : List (String × ServiceConfig) :=
  [("metad", cfgMetad), ("storaged", cfgStoraged),
   ("graphd", cfgGraphd), ("studio", cfgStudio)]

/-- `getContainerName` (identical in both revisions). -/
def getContainerName (serviceName : String) : String :=
  "nebulagraph-desktop-" ++ serviceName ++ "-1"

/-- `getHealthCheckPort` (identical in both revisions). -/
def getHealthCheckPort (serviceName : String) : Option Nat :=
  if serviceName = "metad" then some 11000
  else if serviceName = "storaged" then some 12000
  else if serviceName = "graphd" then some 13000
  else if serviceName = "studio" then some 7001
  else none

/-- Full image name `name:tag` from one manifest entry `(key, name,
tag)`. -/
def imageName (e : String × String × String) : String := e.2.1 ++ ":" ++ e.2.2

/-- Path of the tar archive for a manifest key
(`path.join(this.imagesPath, key + '.tar')`). -/
def tarPath (key : String) : String := "images/" ++ key ++ ".tar"

/-! ## Checker, legacy revision (first half of `docker-checker.ts`) -/

/-- `DockerChecker.checkDockerSystem` of the legacy checker revision
(`docker-checker.ts` lines 47-119): staged engine-version / engine-info /
compose-version checks, every failure reported as a returned value. -/
def checkDockerSystemV1 (env : Env) : M SysStatus :=
  attempt
    (do
      let vres ← tryOpt (execCmd env .dockerVersion)
      match vres with
      | none =>
          pure { isInstalled := false, isRunning := false, version := none,
                 compose := none,
                 error := some "Docker is not installed. Please install Docker Desktop." }
      | some vout =>
          let dockerVersion := jsTrim vout
          let ires ← tryOpt (execCmd env .dockerInfo)
          match ires with
          | none =>
              pure { isInstalled := true, isRunning := false,
                     version := some dockerVersion, compose := none,
                     error := some "Docker daemon is not running. Please start Docker Desktop." }
          | some _ =>
              let c2 ← tryOpt (execCmd env .composeVersion)
              match c2 with
              | some cv =>
                  pure { isInstalled := true, isRunning := true,
                         version := some dockerVersion,
                         compose := some { isInstalled := true, version := some (jsTrim cv) },
                         error := none }
              | none =>
                  let cl ← tryOpt (execCmd env .composeLegacyVersion)
                  match cl with
                  | some lv =>
                      pure { isInstalled := true, isRunning := true,
                             version := some dockerVersion,
                             compose := some { isInstalled := true, version := some (jsTrim lv) },
                             error := none }
                  | none =>
                      pure { isInstalled := true, isRunning := true,
                             version := some dockerVersion,
                             compose := some { isInstalled := false, version := none },
                             error := some "Docker Compose is not installed. Please install Docker Compose v2." })
    (fun e =>
      pure { isInstalled := false, isRunning := false, version := none,
             compose := none, error := some e })

/-- The per-image loop of `checkRequiredImages`: probe each manifest
image with `docker image inspect`, short-circuiting to `false` on the
first miss. -/
def checkImagesGo (env : Env) : List (String × String × String) → M Bool
  | [] => pure true
  | e :: rest => do
      let r ← tryOpt (execCmd env (.imageInspect (imageName e)))
      match r with
      | some _ => checkImagesGo env rest
      | none => pure false

/-- `DockerChecker.checkRequiredImages` (legacy checker revision): read
the manifest (failure ⇒ `false`), then probe every image. -/
def checkRequiredImagesV1 (env : Env) : M Bool :=
  attempt
    (match env.manifest with
     | none => mThrow "manifest read failed"
     | some entries => checkImagesGo env entries)
    (fun _ => pure false)

/-- The per-image loop of `loadImages`: `docker load -i key.tar` for every
manifest entry in order; the first failure aborts with `false`. -/
def loadImagesGo (env : Env) : List (String × String × String) → M Bool
  | [] => pure true
  | e :: rest => do
      let r ← tryOpt (execCmd env (.imageLoad (tarPath e.1)))
      match r with
      | some _ => loadImagesGo env rest
      | none => pure false

/-- `DockerChecker.loadImages` (legacy checker revision). -/
def loadImagesV1 (env : Env) : M Bool :=
  attempt
    (do
      let st ← checkDockerSystemV1 env
      if !(st.isInstalled && st.isRunning) then pure false
      else
        match env.manifest with
        | none => mThrow "manifest read failed"
        | some entries => loadImagesGo env entries)
    (fun _ => pure false)

/-- `DockerChecker.ensureImagesLoaded` (legacy checker revision):
system check, presence check, load fallback. -/
def ensureImagesLoadedV1 (env : Env) : M Bool := do
  let st ← checkDockerSystemV1 env
  if !(st.isInstalled && st.isRunning) then pure false
  else do
    let hasImages ← checkRequiredImagesV1 env
    if !hasImages then loadImagesV1 env
    else pure true

/-! ## Supervisor, legacy revision (`src/unnamed/part_008`) -/

/-- Build a `not yet created / stopped` style entry; helper for the
legacy status branches. -/
def mkEntry (config : ServiceConfig) (st : LifeStatus) (h : Health)
    (fc : Nat) (now : Nat) (metrics : Option Metrics) : ServiceStatus :=
  { name := config.name, status := st,
    health := { status := h, lastCheck := now, failureCount := fc },
    metrics := metrics, ports := config.ports, logs := [] }

/-- `DockerService.getServiceHealth` of the legacy revision
(`part_008` lines 424-482): `docker ps --format Status` string sniffing
with an HTTP probe fallback for running containers without a native
health marker. -/
def getServiceHealthL (env : Env) (serviceName : String) : M Health :=
  attempt
    (do
      let healthStatus ← execCmd env (.psStatusCmd (getContainerName serviceName))
      let status := jsToLower (jsTrim healthStatus)
      if jsInc status "(healthy)" then pure .healthy
      else if jsInc status "(unhealthy)" then pure .unhealthy
      else if jsInc status "starting" then pure .starting
      else if jsInc status "up" then
        attempt
          (match getHealthCheckPort serviceName with
           | none => pure .unknown
           | some port => do
              let o ← execCmd env (.curlCmd port)
              if jsInc o "ok" || jsInc o "healthy" then pure .healthy
              else pure .unhealthy)
          (fun _ => pure .starting)
      else pure .unknown)
    (fun _ => pure .unknown)

/-- One service's branch of the legacy `getServicesStatus`
(`part_008` lines 508-595): raw `docker inspect || echo "not-found"`,
`JSON.parse`, health, stats; any throw in the branch yields the `error`
entry. -/
def statusEntryL (env : Env) (serviceName : String) (config : ServiceConfig) :
    M ServiceStatus :=
  attempt
    (do
      let containerName := getContainerName serviceName
      let inspectOutput ← execCmd env (.inspectCmd containerName)
      if inspectOutput = "not-found" then do
        let w ← getW
        pure (mkEntry config .stopped .unknown 0 w.now none)
      else
        match env.jsonRunning inspectOutput with
        | none => mThrow "JSON parse error"
        | some isRunning => do
            let health ← getServiceHealthL env serviceName
            if isRunning then do
              let statsOutput ←
                attempt (execCmd env (.statsCmd containerName))
                  (fun _ => pure "0%;0MB;0B")
              let parts := splitChar statsOutput ';'
              let w ← getW
              pure (mkEntry config .running health
                      (if health = .unhealthy then 1 else 0) w.now
                      (some { cpu := metricCpu parts, memory := metricMem parts,
                              network := metricNet parts }))
            else do
              let w ← getW
              pure (mkEntry config .stopped .unknown 0 w.now none))
    (fun _ => do
      let w ← getW
      pure (mkEntry config .error .unknown 1 w.now none))

/-- Evaluate every declared service with `statusEntryL` (the source runs
the branches under `Promise.all`; evaluation is sequentialized here, the
branches share no state besides the trace and clock). -/
def statusListL (env : Env) :
    List (String × ServiceConfig) → M (List (String × ServiceStatus))
  | [] => pure []
  | p :: rest => do
      let e ← statusEntryL env p.1 p.2
      let restResults ← statusListL env rest
      pure ((p.1, e) :: restResults)

/-- The recompute-and-cache body of the legacy `getServicesStatus`. -/
def gssBodyL (env : Env) : M (List (String × ServiceStatus)) := do
  let services ← statusListL env serviceConfigs
  modifyW (fun w => { w with lastServiceStatus := services })
  pure services

/-- `DockerService.getServicesStatus` of the legacy revision (`part_008`
lines 499-606): return the cached snapshot while a start is in flight,
otherwise recompute everything and replace the cache; a top-level throw
returns the last cached snapshot. -/
def getServicesStatusL (env : Env) (w : World) :
    List (String × ServiceStatus) × World :=
  if w.servicesStarting && decide (w.lastServiceStatus ≠ []) then
    (w.lastServiceStatus, w)
  else
    match gssBodyL env w with
    | (.ok l, w') => (l, w')
    | (.err _, w') => (w'.lastServiceStatus, w')

/-- `DockerService.isImageCheckCacheValid` (legacy revision): the cached
image-check result is valid for one hour; the cached boolean itself is
not consulted here. -/
def isImageCheckCacheValid (w : World) : Bool :=
  match w.imageCheckCache with
  | none => false
  | some c => decide (w.now - c.1 < 1000 * 60 * 60)

/-- `status.compose?.isInstalled` with optional chaining. -/
def composeInstalled (st : SysStatus) : Bool :=
  match st.compose with
  | none => false
  | some c => c.isInstalled

/-- Lift a pure state transformer (a never-throwing operation) into
`M`. -/
def liftSM (f : World → α × World) : M α := fun w =>
  let (a, w') := f w
  (.ok a, w')

/-- The bounded health-polling loop of the legacy `startServices`
(`part_008` lines 330-350): up to `fuel` rounds, each polling the full
status map and succeeding when every service is `running`+`healthy`. -/
def startPollLoopL (env : Env) : Nat → M (Option StartResult)
  | 0 => pure none
  | n + 1 => do
      let currentStatus ← liftSM (getServicesStatusL env)
      let allHealthy := currentStatus.all (fun p =>
        decide (p.2.status = .running) && decide (p.2.health.status = .healthy))
      if allHealthy then do
        modifyW (fun w2 => { w2 with servicesStarting := false })
        pure (some { success := true, error := none })
      else do
        sleepM 1000
        startPollLoopL env n

/-- The tail of the legacy `startServices` after image provisioning
(`part_008` lines 319-363): `docker compose up -d`, a one-second settle
delay, the bounded poll, and the final enumeration of the services that
never became healthy. -/
def startServicesLAfter (env : Env) : M StartResult := do
  let _ ← execCmd env .composeUpFileCmd
  sleepM 1000
  let looped ← startPollLoopL env 20
  match looped with
  | some res => pure res
  | none => do
      modifyW (fun w2 => { w2 with servicesStarting := false })
      let finalStatus ← liftSM (getServicesStatusL env)
      let unhealthyServices := (finalStatus.filter (fun p =>
        !(decide (p.2.status = .running) &&
          decide (p.2.health.status = .healthy)))).map Prod.fst
      pure { success := unhealthyServices.isEmpty,
             error :=
               if unhealthyServices.isEmpty then none
               else some ("Services " ++ String.intercalate ", " unhealthyServices ++
                          " failed to start properly.") }

/-- The `try`-block body of the legacy `startServices` (`part_008` lines
276-363): set the in-flight flag, check system requirements, provision
images unless the one-hour cache is valid, then continue with
`startServicesLAfter`.  Note that the requirements-not-met return leaves
the in-flight flag set, exactly as the source does. -/
def startServicesLBody (env : Env) : M StartResult := do
  modifyW (fun w => { w with servicesStarting := true })
  let dockerStatus ← checkDockerSystemV1 env
  if !(dockerStatus.isInstalled && dockerStatus.isRunning &&
        composeInstalled dockerStatus) then
    pure { success := false,
           error := some "Docker system requirements not met. Please check Docker installation." }
  else do
    let w ← getW
    if !(isImageCheckCacheValid w) then do
      let imagesLoaded ← ensureImagesLoadedV1 env
      modifyW (fun w2 => { w2 with imageCheckCache := some (w2.now, imagesLoaded) })
      if !imagesLoaded then do
        modifyW (fun w2 => { w2 with servicesStarting := false })
        pure { success := false, error := some "Failed to load required Docker images." }
      else startServicesLAfter env
    else startServicesLAfter env

/-- `DockerService.startServices` of the legacy revision (`part_008`
lines 269-372): reject immediately while a start is in flight, otherwise
run the body; the `catch` clears the in-flight flag and reports the
error message. -/
def startServicesL (env : Env) (w : World) : StartResult × World :=
  if w.servicesStarting then
    ({ success := false, error := some "Services are already starting" }, w)
  else
    match startServicesLBody env w with
    | (.ok r, w') => (r, w')
    | (.err e, w') =>
        ({ success := false, error := some e },
         { w' with servicesStarting := false })

/-! ## Checker, current revision (second half of `docker-checker.ts`) -/

/-- `DOCKER_PATHS`: well-known docker binary locations per platform. -/
def dockerPathsFor : Platform → List String
  | .darwin =>
      ["/usr/local/bin/docker", "/opt/homebrew/bin/docker",
       "/Applications/Docker.app/Contents/Resources/bin/docker"]
  | .linux => ["/usr/bin/docker", "/usr/local/bin/docker"]
  | .win32 =>
      ["C:\\Program Files\\Docker\\Docker\\resources\\bin\\docker.exe",
       "C:\\Program Files\\Docker\\Docker\\resources\\docker.exe"]

/-- `DockerChecker.findDockerPath` (current checker revision): return the
cached path, otherwise probe the well-known locations with
`fs.access`, otherwise ask the shell (`which docker`); the first success
is cached in the instance. -/
def findDockerPath (env : Env) : M (Option String) := do
  let w ← getW
  match w.dockerPath with
  | some p => pure (some p)
  | none =>
      match (dockerPathsFor env.platform).find? env.fsOk with
      | some p => do
          modifyW (fun w2 => { w2 with dockerPath := some p })
          pure (some p)
      | none =>
          attempt
            (do
              let o ← execCmd env .whichDocker
              let p := jsTrim o
              if p ≠ "" then do
                modifyW (fun w2 => { w2 with dockerPath := some p })
                pure (some p)
              else pure none)
            (fun _ => pure none)

/-- Commands whose text starts with `docker ` (those get the resolved
binary path substituted by `execCommand`). -/
def startsWithDocker : Cmd → Bool
  | .curlCmd _ => false
  | .whichDocker => false
  | _ => true

/-- `DockerChecker.execCommand` (current checker revision): resolve the
docker binary for `docker ...` command lines (the substitution changes
only the command text, not which command runs), execute, and return the
trimmed stdout; a rejection is rethrown. -/
def execCommand (env : Env) (c : Cmd) : M String := do
  if startsWithDocker c then do
    let _ ← findDockerPath env
    let o ← execCmd env c
    pure (jsTrim o)
  else do
    let o ← execCmd env c
    pure (jsTrim o)

/-- Success value of the current checker's `checkDockerSystem`. -/
def mkOkStatus (v cv : String) : SysStatus :=
  { isInstalled := true, isRunning := true, version := some v,
    compose := some { isInstalled := true, version := some cv },
    error := none }

/-- `DockerChecker.checkDockerSystem` of the current checker revision
(`docker-checker.ts` lines 364-435): staged CLI / daemon / compose
checks; the outer catch maps a failing `docker --version` to
`not installed`, and a missing compose is a returned degraded state. -/
def checkDockerSystemB (env : Env) : M SysStatus :=
  attempt
    (do
      let dockerVersion ← execCommand env .dockerVersion
      let ires ← tryOpt (execCommand env .dockerInfo)
      match ires with
      | none =>
          pure { isInstalled := true, isRunning := false,
                 version := some dockerVersion, compose := none,
                 error := some "Docker daemon is not running" }
      | some _ =>
          let c2 ← tryOpt (execCommand env .composeVersion)
          match c2 with
          | some cv => pure (mkOkStatus dockerVersion cv)
          | none =>
              let cl ← tryOpt (execCommand env .composeLegacyVersion)
              match cl with
              | some lv => pure (mkOkStatus dockerVersion lv)
              | none =>
                  pure { isInstalled := true, isRunning := true,
                         version := some dockerVersion,
                         compose := some { isInstalled := false, version := none },
                         error := some "Docker Compose not found" })
    (fun e =>
      pure { isInstalled := false, isRunning := false, version := none,
             compose := none, error := some e })

/-- `DockerService.checkDockerStatus` of the current revision
(`docker-service.ts` lines 293-303): `isInstalled && isRunning`, `false`
on any throw. -/
def checkDockerStatusMain (env : Env) : M Bool :=
  attempt
    (do
      let st ← checkDockerSystemB env
      pure (st.isInstalled && st.isRunning))
    (fun _ => pure false)

/-- `DockerChecker.checkRequiredImages` of the current checker revision
(`docker-checker.ts` lines 478-501): read the manifest (failure ⇒
`false`), then probe every image, short-circuiting on the first miss. -/
def checkRequiredImagesB (env : Env) : M Bool :=
  attempt
    (match env.manifest with
     | none => mThrow "manifest read failed"
     | some entries => checkImagesGo env entries)
    (fun _ => pure false)

/-- `DockerChecker.loadImages` of the current checker revision
(`docker-checker.ts` lines 503-546). -/
def loadImagesB (env : Env) : M Bool :=
  attempt
    (do
      let st ← checkDockerSystemB env
      if !(st.isInstalled && st.isRunning) then pure false
      else
        match env.manifest with
        | none => mThrow "manifest read failed"
        | some entries => loadImagesGo env entries)
    (fun _ => pure false)

/-- `DockerChecker.ensureImagesLoaded` of the current checker revision
(`docker-checker.ts` lines 548-564): system check, presence check,
load fallback. -/
def ensureImagesLoadedB (env : Env) : M Bool := do
  let st ← checkDockerSystemB env
  if !(st.isInstalled && st.isRunning) then pure false
  else do
    let hasImages ← checkRequiredImagesB env
    if !hasImages then loadImagesB env
    else pure true

/-! ## Supervisor, current revision (`docker-service.ts`) -/

/-- `DockerService.getServiceHealth` of the current revision
(`docker-service.ts` lines 514-567): `docker inspect` (with an
`|| echo not-found` guard), then the `--format` health status; a missing
container or any error yields `unknown`, an absent native status yields
`healthy` only for the `storage-activator` helper and `starting`
otherwise. -/
def getServiceHealthMain (env : Env) (serviceName : String) : M Health :=
  attempt
    (do
      let containerName := getContainerName serviceName
      let inspectOutput ← execCommand env (.inspectCmd containerName)
      if inspectOutput = "not-found" ∨ jsInc inspectOutput "Error: No such object" = true then
        pure .unknown
      else
        attempt
          (match env.jsonRunning inspectOutput with
           | none => mThrow "JSON parse error"
           | some isRunning =>
              if !isRunning then pure .unknown
              else do
                let healthStatus ← execCommand env (.healthFmt containerName)
                let status := jsToLower (jsTrim healthStatus)
                if status = "healthy" then pure .healthy
                else if status = "unhealthy" then pure .unhealthy
                else if status = "starting" then pure .starting
                else if serviceName = "storage-activator" then pure .healthy
                else pure .starting)
          (fun _ => pure .unknown))
    (fun _ => pure .unknown)

/-- Closed form of `getServiceHealthMain` under the stationary
environment: the verdict as a function of the oracle alone. -/
def resolveHealthMain (env : Env) (serviceName : String) : Health :=
  let c := getContainerName serviceName
  if !(env.cmdOk (.inspectCmd c)) then .unknown
  else
    let o := jsTrim (env.out (.inspectCmd c))
    if o = "not-found" ∨ jsInc o "Error: No such object" = true then .unknown
    else
      match env.jsonRunning o with
      | none => .unknown
      | some false => .unknown
      | some true =>
          if !(env.cmdOk (.healthFmt c)) then .unknown
          else
            let st := jsToLower (jsTrim (jsTrim (env.out (.healthFmt c))))
            if st = "healthy" then .healthy
            else if st = "unhealthy" then .unhealthy
            else if st = "starting" then .starting
            else if serviceName = "storage-activator" then .healthy
            else .starting

/-- The all-`not_created` entry used by `createNotCreatedServices` and
the not-found/parse-error/not-running branches of the current
`getServicesStatus`. -/
def notCreatedEntry (config : ServiceConfig) (now : Nat) : ServiceStatus :=
  { name := config.name, status := .notCreated,
    health := { status := .notCreated, lastCheck := now, failureCount := 0 },
    metrics := none, ports := config.ports, logs := [] }

/-- `DockerService.createNotCreatedServices` (`docker-service.ts` lines
584-601): one `not_created` entry per declared service. -/
def notCreatedMap (now : Nat) : List (String × ServiceStatus) :=
  serviceConfigs.map (fun p => (p.1, notCreatedEntry p.2 now))

/-- One service's branch of the current `getServicesStatus`
(`docker-service.ts` lines 667-793): inspect, parse, health, stats; every
failure degrades that one entry to `not_created`. -/
def statusEntryMain (env : Env) (serviceName : String) (config : ServiceConfig) :
    M ServiceStatus :=
  attempt
    (do
      let containerName := getContainerName serviceName
      let inspectOutput ← execCommand env (.inspectCmd containerName)
      let cleanOutput := jsTrim inspectOutput
      if cleanOutput = "not-found" ∨ jsInc cleanOutput "Error: No such object" = true then do
        let w ← getW
        pure (notCreatedEntry config w.now)
      else
        match env.jsonRunning cleanOutput with
        | none => do
            let w ← getW
            pure (notCreatedEntry config w.now)
        | some isRunning =>
            if !isRunning then do
              let w ← getW
              pure (notCreatedEntry config w.now)
            else do
              let health ← getServiceHealthMain env serviceName
              let statsOutput ←
                attempt (execCommand env (.statsCmd containerName))
                  (fun _ => pure "0%;0MB;0B")
              let parts := splitChar statsOutput ';'
              let w ← getW
              pure { name := config.name, status := .running,
                     health := { status := health, lastCheck := w.now,
                                 failureCount := if health = .unhealthy then 1 else 0 },
                     metrics := some { cpu := metricCpu parts,
                                       memory := metricMem parts,
                                       network := metricNet parts },
                     ports := config.ports, logs := [] })
    (fun _ => do
      let w ← getW
      pure (notCreatedEntry config w.now))

/-- Closed form of `statusEntryMain` under the stationary
environment. -/
def entryPureMain (env : Env) (serviceName : String) (config : ServiceConfig)
    (now : Nat) : ServiceStatus :=
  let c := getContainerName serviceName
  if !(env.cmdOk (.inspectCmd c)) then notCreatedEntry config now
  else
    let o := jsTrim (jsTrim (env.out (.inspectCmd c)))
    if o = "not-found" ∨ jsInc o "Error: No such object" = true then
      notCreatedEntry config now
    else
      match env.jsonRunning o with
      | none => notCreatedEntry config now
      | some false => notCreatedEntry config now
      | some true =>
          let health := resolveHealthMain env serviceName
          let statsOutput :=
            if env.cmdOk (.statsCmd c) then jsTrim (env.out (.statsCmd c))
            else "0%;0MB;0B"
          let parts := splitChar statsOutput ';'
          { name := config.name, status := .running,
            health := { status := health, lastCheck := now,
                        failureCount := if health = .unhealthy then 1 else 0 },
            metrics := some { cpu := metricCpu parts, memory := metricMem parts,
                              network := metricNet parts },
            ports := config.ports, logs := [] }

/-- Evaluate every declared service with `statusEntryMain` (the source
runs the branches under `Promise.all`; evaluation is sequentialized
here, the branches share no state besides the trace and clock). -/
def statusListMain (env : Env) :
    List (String × ServiceConfig) → M (List (String × ServiceStatus))
  | [] => pure []
  | p :: rest => do
      let e ← statusEntryMain env p.1 p.2
      let restResults ← statusListMain env rest
      pure ((p.1, e) :: restResults)

/-- The user-data compose file path (fixed for the process, set by
`initializePaths`). -/
def composeFilePathC : String := "userData/.nebulagraph-desktop/docker-compose.yml"

/-- `COMPOSE_CACHE_DURATION` (one minute, in milliseconds). -/
def composeCacheMs : Nat := 1000 * 60

/-- The cache-miss branch of `verifyComposeFile`: `fs.access` +
`fs.readFile` (merged into the oracle bit `Env.fsOk`), content check
(`Env.composeContentOk`), cache refresh; any fs failure caches and
returns `false`. -/
def verifyComposeFileFresh (env : Env) : M Bool := do
  let w ← getW
  if env.fsOk composeFilePathC then do
    modifyW (fun w2 =>
      { w2 with composeFileCache := some (composeFilePathC, w.now, env.composeContentOk) })
    pure env.composeContentOk
  else do
    modifyW (fun w2 =>
      { w2 with composeFileCache := some (composeFilePathC, w.now, false) })
    pure false

/-- `DockerService.verifyComposeFile` (`docker-service.ts` lines
170-201): one-minute result cache in front of the filesystem check. -/
def verifyComposeFileMain (env : Env) : M Bool := do
  let w ← getW
  match w.composeFileCache with
  | some pce =>
      if pce.1 = composeFilePathC ∧ w.now - pce.2.1 < composeCacheMs then
        pure pce.2.2
      else verifyComposeFileFresh env
  | none => verifyComposeFileFresh env

/-- Closed form of `verifyComposeFileMain`'s value. -/
def verifyPure (env : Env) (cache : Option (String × Nat × Bool)) (now : Nat) : Bool :=
  match cache with
  | some pce =>
      if pce.1 = composeFilePathC ∧ now - pce.2.1 < composeCacheMs then pce.2.2
      else if env.fsOk composeFilePathC then env.composeContentOk else false
  | none => if env.fsOk composeFilePathC then env.composeContentOk else false

/-- Closed form of `checkDockerSystemB`'s value under the stationary
environment. -/
def sysStatusPure (env : Env) : SysStatus :=
  if !(env.cmdOk .dockerVersion) then
    { isInstalled := false, isRunning := false, version := none,
      compose := none, error := some (env.errMsg .dockerVersion) }
  else if !(env.cmdOk .dockerInfo) then
    { isInstalled := true, isRunning := false,
      version := some (jsTrim (env.out .dockerVersion)), compose := none,
      error := some "Docker daemon is not running" }
  else if env.cmdOk .composeVersion then
    mkOkStatus (jsTrim (env.out .dockerVersion)) (jsTrim (env.out .composeVersion))
  else if env.cmdOk .composeLegacyVersion then
    mkOkStatus (jsTrim (env.out .dockerVersion)) (jsTrim (env.out .composeLegacyVersion))
  else
    { isInstalled := true, isRunning := true,
      version := some (jsTrim (env.out .dockerVersion)),
      compose := some { isInstalled := false, version := none },
      error := some "Docker Compose not found" }

/-- Closed form of `checkDockerStatusMain`'s value. -/
def checkVerdict (env : Env) : Bool :=
  (sysStatusPure env).isInstalled && (sysStatusPure env).isRunning

/-- The body of the current `getServicesStatus` (`docker-service.ts`
lines 603-805) up to its outer catch: clear the cache, verify the
compose file, check the daemon, probe `docker compose ps`, (dead)
cache-during-start guard, then evaluate every declared service and
replace the cache. -/
def gssBodyMain (env : Env) : M (List (String × ServiceStatus)) := do
  modifyW (fun w => { w with lastServiceStatus := [] })
  let composeExists ← verifyComposeFileMain env
  if !composeExists then do
    let w ← getW
    pure (notCreatedMap w.now)
  else do
    let isDockerRunning ← checkDockerStatusMain env
    if !isDockerRunning then do
      let w ← getW
      pure (notCreatedMap w.now)
    else do
      let psRes ← tryOpt (execCommand env .composePs)
      match psRes with
      | none => do
          let w ← getW
          let m := notCreatedMap w.now
          modifyW (fun w2 => { w2 with lastServiceStatus := m })
          pure m
      | some psOutput =>
          if jsTrim psOutput = "" then do
            let w ← getW
            let m := notCreatedMap w.now
            modifyW (fun w2 => { w2 with lastServiceStatus := m })
            pure m
          else do
            let w ← getW
            if w.servicesStarting ∧ w.lastServiceStatus ≠ [] then
              pure w.lastServiceStatus
            else do
              let services ← statusListMain env serviceConfigs
              if services.length = serviceConfigs.length then
                modifyW (fun w2 => { w2 with lastServiceStatus := services })
              else pure ()
              pure services

/-- `DockerService.getServicesStatus` of the current revision
(`docker-service.ts` lines 603-813).  The outer catch synthesizes the
all-`not_created` snapshot and caches it, so the operation as a whole
never throws. -/
def getServicesStatusMain (env : Env) (w : World) :
    List (String × ServiceStatus) × World :=
  match gssBodyMain env w with
  | (.ok l, w') => (l, w')
  | (.err _, w') =>
      let m := notCreatedMap w'.now
      (m, { w' with lastServiceStatus := m })

/-- Closed form of the snapshot returned by `getServicesStatusMain`. -/
def gssValueMain (env : Env) (w : World) : List (String × ServiceStatus) :=
  if !(verifyPure env w.composeFileCache w.now) then notCreatedMap w.now
  else if !(checkVerdict env) then notCreatedMap w.now
  else if !(env.cmdOk .composePs) then notCreatedMap w.now
  else if jsTrim (jsTrim (env.out .composePs)) = "" then notCreatedMap w.now
  else serviceConfigs.map (fun p => (p.1, entryPureMain env p.1 p.2 w.now))

/-- The attempt loop of the current `waitForHealthCheck`
(`docker-service.ts` lines 351-394): poll the health resolver; `healthy`
succeeds, `starting` sleeps and retries, anything else optionally tries
the macOS HTTP probe before sleeping; after the budget one final poll
accepts `starting` as well as `healthy`. -/
def waitLoopMain (env : Env) (service : String) (config : ServiceConfig)
    (interval : Nat) : Nat → M Bool
  | 0 => do
      let health ← getServiceHealthMain env service
      pure (decide (health = .starting) || decide (health = .healthy))
  | n + 1 => do
      let health ← getServiceHealthMain env service
      if health = .healthy then pure true
      else if health = .starting then do
        sleepM interval
        waitLoopMain env service config interval n
      else do
        let hit ←
          if env.platform = .darwin then
            attempt
              (do
                let o ← execCommand env (.curlCmd config.healthCheckPort)
                pure (jsInc o "ok" || jsInc o "healthy"))
              (fun _ => pure false)
          else pure false
        if hit then pure true
        else do
          sleepM interval
          waitLoopMain env service config interval n

/-- `DockerService.waitForHealthCheck` of the current revision
(`docker-service.ts` lines 342-395): unknown services fail immediately,
otherwise the bounded attempt loop runs. -/
def waitForHealthCheckMain (env : Env) (service : String)
    (maxAttempts interval : Nat) : M Bool :=
  match serviceConfigs.lookup service with
  | none => pure false
  | some config => waitLoopMain env service config interval maxAttempts

/-- Whether the macOS HTTP fallback probe of `waitForHealthCheck`
succeeds with an `ok`/`healthy` marker. -/
def probeHit (env : Env) (config : ServiceConfig) : Bool :=
  env.cmdOk (.curlCmd config.healthCheckPort) &&
  (jsInc (jsTrim (env.out (.curlCmd config.healthCheckPort))) "ok" ||
   jsInc (jsTrim (env.out (.curlCmd config.healthCheckPort))) "healthy")

/-- Closed form of the verdict of `waitForHealthCheckMain` (with at
least one attempt) under the stationary environment: the wait succeeds
iff the resolver reports `healthy` or `starting`, or the macOS probe
hits. -/
def waitVerdictMain (env : Env) (service : String) (config : ServiceConfig) : Bool :=
  decide (resolveHealthMain env service = .healthy) ||
  decide (resolveHealthMain env service = .starting) ||
  (decide (env.platform = .darwin) && probeHit env config)

/-- The per-service wait loop of the current `startServices`
(`docker-service.ts` lines 427-439): services are awaited in declaration
order; the first failed wait aborts with an error naming that service. -/
def startHealthLoopMain (env : Env) : List (String × ServiceConfig) → M StartResult
  | [] => pure { success := true, error := none }
  | p :: rest => do
      let isHealthy ← waitForHealthCheckMain env p.1 60 2000
      if isHealthy then startHealthLoopMain env rest
      else
        pure { success := false,
               error := some ("Service " ++ p.1 ++ " failed to become healthy") }

/-- The `try`-block body of the current `startServices`
(`docker-service.ts` lines 402-442).  `initializePaths` is filesystem-
and Electron-only (directory creation and compose-file templating); it is
modelled at that fs boundary by the single oracle bit `Env.initOk`, a
failure propagating as a thrown error exactly as in the source. -/
def startServicesBodyMain (env : Env) : M StartResult := do
  if !env.initOk then mThrow "Failed to initialize paths"
  else do
    let isDockerRunning ← checkDockerStatusMain env
    if !isDockerRunning then
      pure { success := false,
             error := some "Docker is not running. Please start Docker Desktop first." }
    else do
      let upRes ← tryRes (execCommand env .composeUp)
      match upRes with
      | .err e => pure { success := false, error := some e }
      | .ok _ => startHealthLoopMain env serviceConfigs

/-- `DockerService.startServices` of the current revision
(`docker-service.ts` lines 397-450): the outer catch converts any
unexpected error into a `{ success: false, error }` result.  This
revision does not consult or set the `servicesStarting` flag. -/
def startServicesMain (env : Env) (w : World) : StartResult × World :=
  match startServicesBodyMain env w with
  | (.ok r, w') => (r, w')
  | (.err e, w') => ({ success := false, error := some e }, w')

/-- Closed form of the result of the start-wait loop: the first service
whose wait verdict fails determines the error, none failing means
success. -/
def loopResultPure (env : Env) (l : List (String × ServiceConfig)) : StartResult :=
  match l.find? (fun p => !(waitVerdictMain env p.1 p.2)) with
  | none => { success := true, error := none }
  | some p =>
      { success := false,
        error := some ("Service " ++ p.1 ++ " failed to become healthy") }

/-! ## Concrete environments and worlds used in the closed checks -/

/-- A baseline environment: linux, every command succeeds with empty
output, the filesystem is fully available. -/
def baseEnv : Env :=
  { platform := .linux,
    cmdOk := fun _ => true,
    out := fun _ => "",
    errMsg := fun _ => "command failed",
    jsonRunning := fun _ => none,
    fsOk := fun _ => true,
    composeContentOk := true,
    manifest := none,
    archive := fun _ => [],
    initOk := true }

/-- The initial world: clock zero, no trace, no images, no caches. -/
def w0 : World :=
  { now := 0, trace := [], images := [], servicesStarting := false,
    lastServiceStatus := [], imageCheckCache := none,
    composeFileCache := none, dockerPath := none }

/-- A world in which a whole-stack start is already in flight. -/
def wStarting : World := { w0 with servicesStarting := true }

/-- A world with a start in flight and a non-empty cached snapshot. -/
def wCached : World :=
  { w0 with servicesStarting := true,
            lastServiceStatus := [("metad", notCreatedEntry cfgMetad 0)] }

/-- Environment for the stuck-flag check: the engine-info query fails,
so the legacy requirements check reports the system as not ready. -/
def envFlagStuck : Env :=
  { baseEnv with
    cmdOk := fun c => match c with | .dockerInfo => false | _ => true }

/-- Environment for the start-success counterexample: every container
inspects as running, `storaged`'s native health status is forever
`starting` while every other service reports `healthy`. -/
def envStuckStarting : Env :=
  { baseEnv with
    out := fun c => match c with
      | .inspectCmd _ => "[]"
      | .healthFmt n =>
          if n = "nebulagraph-desktop-storaged-1" then "starting" else "healthy"
      | _ => "",
    jsonRunning := fun _ => some true }

/-- A world with the docker binary path already resolved (the checker
caches it after the first command). -/
def wResolved : World := { w0 with dockerPath := some "/usr/bin/docker" }

/-- Environment in which every service is immediately healthy. -/
def envAllHealthy : Env :=
  { baseEnv with
    out := fun c => match c with
      | .inspectCmd _ => "[]"
      | .healthFmt _ => "healthy"
      | _ => "",
    jsonRunning := fun _ => some true }

/-- Environment in which no container exists: every `docker inspect`
falls back to the `echo not-found` guard. -/
def envNoContainer : Env :=
  { baseEnv with
    out := fun c => match c with
      | .inspectCmd _ => "not-found"
      | .composePs => "nebulagraph-desktop-metad-1"
      | _ => "",
    jsonRunning := fun _ => some true }

/-- Environment whose compose file is absent (`fs.access` fails), so the
status query synthesizes the all-`not_created` snapshot. -/
def envNoCompose : Env := { baseEnv with fsOk := fun _ => false }

/-- Environment with a running container whose native health status is
`starting`. -/
def envNativeStarting : Env :=
  { baseEnv with
    out := fun c => match c with
      | .inspectCmd _ => "[]"
      | .healthFmt _ => "starting"
      | _ => "",
    jsonRunning := fun _ => some true }

/-- Environment with a running container and no configured native
health check (the `--format` fallback prints `none`). -/
def envNativeAbsent : Env :=
  { baseEnv with
    out := fun c => match c with
      | .inspectCmd _ => "[]"
      | .healthFmt _ => "none"
      | _ => "",
    jsonRunning := fun _ => some true }

/-- Environment with a running container whose native health status is
`unhealthy`. -/
def envNativeUnhealthy : Env :=
  { baseEnv with
    out := fun c => match c with
      | .inspectCmd _ => "[]"
      | .healthFmt _ => "unhealthy"
      | _ => "",
    jsonRunning := fun _ => some true }

/-- Environment whose `docker --version` fails. -/
def envNoDocker : Env :=
  { baseEnv with
    cmdOk := fun c => match c with | .dockerVersion => false | _ => true }

/-- Environment whose engine runs but whose `docker info` fails. -/
def envDaemonDown : Env :=
  { baseEnv with
    cmdOk := fun c => match c with | .dockerInfo => false | _ => true }

/-- Environment in which both compose version queries fail while the
engine itself is running. -/
def envNoComposeTool : Env :=
  { baseEnv with
    cmdOk := fun c => match c with
      | .composeVersion => false
      | .composeLegacyVersion => false
      | _ => true }

/-- Environment for the provisioning-idempotence check: a one-image
manifest whose archive contains exactly the manifest image. -/
def envImages : Env :=
  { baseEnv with
    manifest := some [("metad", "vesoft/nebula-metad", "v3.8.0")],
    archive := fun p =>
      if p = tarPath "metad" then ["vesoft/nebula-metad:v3.8.0"] else [] }

/-- A world whose engine already holds the manifest image. -/
def wImages : World := { w0 with images := ["vesoft/nebula-metad:v3.8.0"] }

/-- The world fields every status/health/checker step leaves untouched
(everything except the trace and the cached docker binary path; steps
that do touch one of these fields get their own, weaker lemmas). -/
def PresCore (w w' : World) : Prop :=
  w'.now = w.now ∧ w'.images = w.images ∧
  w'.servicesStarting = w.servicesStarting ∧
  w'.lastServiceStatus = w.lastServiceStatus ∧
  w'.imageCheckCache = w.imageCheckCache ∧
  w'.composeFileCache = w.composeFileCache

/-- The trace grew by an extension whose commands all satisfy `P`. -/
def TraceExt (w w' : World) (P : Cmd → Prop) : Prop :=
  ∃ ext, w'.trace = w.trace ++ ext ∧ ∀ c ∈ ext, P c

/-! ## Basic run lemmas for the effect monad -/

/-- Unfolding lemma for monadic bind. -/
@[simp] theorem mBind_run (x : M α) (f : α → M β) (w : World) :
    (x >>= f) w =
      match x w with
      | (.ok a, w') => f a w'
      | (.err e, w') => (.err e, w') := rfl

/-- Unfolding lemma for monadic pure. -/
@[simp] theorem mPure_run (a : α) (w : World) :
    (pure a : M α) w = (.ok a, w) := rfl

/-- Unfolding lemma for `attempt`. -/
@[simp] theorem attempt_run (x : M α) (h : String → M α) (w : World) :
    attempt x h w =
      match x w with
      | (.ok a, w') => (.ok a, w')
      | (.err e, w') => h e w' := rfl

/-- Unfolding lemma for `mThrow`. -/
@[simp] theorem mThrow_run (e : String) (w : World) :
    (mThrow e : M α) w = (.err e, w) := rfl

/-- Unfolding lemma for `getW`. -/
@[simp] theorem getW_run (w : World) : getW w = (.ok w, w) := rfl

/-- Unfolding lemma for `modifyW`. -/
@[simp] theorem modifyW_run (f : World → World) (w : World) :
    modifyW f w = (.ok (), f w) := rfl

/-- Unfolding lemma for `liftSM`. -/
@[simp] theorem liftSM_run (f : World → α × World) (w : World) :
    liftSM f w = (.ok (f w).1, (f w).2) := rfl

/-- Unfolding lemma for `sleepM`. -/
@[simp] theorem sleepM_run (ms : Nat) (w : World) :
    sleepM ms w = (.ok (), { w with now := w.now + ms }) := rfl

/-! ## C1: concurrent whole-stack starts are rejected -/

/-- C1: every call to the legacy `startServices` made while
`servicesStarting` is already `true` returns the `AlreadyStarting`
failure (`'Services are already starting'`) immediately, leaves the
world untouched, and in particular records no external command at
all. -/
theorem c1_start_rejected_while_starting (env : Env) (w : World)
    (h : w.servicesStarting = true) :
    startServicesL env w =
      ({ success := false, error := some "Services are already starting" }, w) := by
  unfold startServicesL
  rw [h]
  simp

/-- Witness for C1 at a concrete in-flight world. -/
theorem c1_witness :
    startServicesL baseEnv wStarting =
      ({ success := false, error := some "Services are already starting" }, wStarting) :=
  c1_start_rejected_while_starting baseEnv wStarting rfl

/-! ## C3: status queries during an in-flight start return the cache -/

/-- C3: the legacy `getServicesStatus`, called while a whole-stack start
is in flight and the cached snapshot is non-empty, returns the cached
snapshot verbatim and leaves the world untouched — in particular it
issues no container inspect or stats command. -/
theorem c3_cache_during_start (env : Env) (w : World)
    (h1 : w.servicesStarting = true) (h2 : w.lastServiceStatus ≠ []) :
    getServicesStatusL env w = (w.lastServiceStatus, w) := by
  unfold getServicesStatusL
  rw [h1]
  simp [h2]

/-- Witness for C3 at a concrete in-flight world with a cached
snapshot. -/
theorem c3_witness :
    getServicesStatusL baseEnv wCached = (wCached.lastServiceStatus, wCached) :=
  c3_cache_during_start baseEnv wCached rfl (by decide)

/-! ## C4: the requirements-not-met path leaves the in-flight flag set -/

/-- C4 (failing run): starting from an idle world, when the docker
system requirements are not met (here: the engine-info query fails) the
legacy `startServices` returns the requirements failure but leaves
`servicesStarting` stuck at `true`, so every later start attempt is
rejected as `AlreadyStarting`. -/
theorem c4_flag_left_set :
    (startServicesL envFlagStuck w0).1 =
      { success := false,
        error := some "Docker system requirements not met. Please check Docker installation." }
    ∧ (startServicesL envFlagStuck w0).2.servicesStarting = true :=
  ⟨rfl, rfl⟩

/-! ## Preservation and trace lemmas -/

/-- `PresCore` is reflexive. -/
theorem presCore_refl (w : World) : PresCore w w := ⟨rfl, rfl, rfl, rfl, rfl, rfl⟩

/-- `PresCore` is transitive. -/
theorem presCore_trans {w w' w'' : World} (h1 : PresCore w w') (h2 : PresCore w' w'') :
    PresCore w w'' := by
  obtain ⟨a1, b1, c1, d1, e1, f1⟩ := h1
  obtain ⟨a2, b2, c2, d2, e2, f2⟩ := h2
  exact ⟨a2.trans a1, b2.trans b1, c2.trans c1, d2.trans d1, e2.trans e1, f2.trans f1⟩

/-- Unchanged traces extend trivially. -/
theorem traceExt_refl (w : World) (P : Cmd → Prop) : TraceExt w w P :=
  ⟨[], by simp, by simp⟩

/-- Trace extensions compose. -/
theorem traceExt_trans {w w' w'' : World} {P : Cmd → Prop}
    (h1 : TraceExt w w' P) (h2 : TraceExt w' w'' P) : TraceExt w w'' P := by
  obtain ⟨e1, he1, hp1⟩ := h1
  obtain ⟨e2, he2, hp2⟩ := h2
  refine ⟨e1 ++ e2, by rw [he2, he1, List.append_assoc], ?_⟩
  intro c hc
  rcases List.mem_append.mp hc with h | h
  · exact hp1 c h
  · exact hp2 c h

/-- Trace extensions are monotone in the command predicate. -/
theorem traceExt_mono {w w' : World} {P Q : Cmd → Prop}
    (h : ∀ c, P c → Q c) : TraceExt w w' P → TraceExt w w' Q := by
  rintro ⟨e, he, hp⟩
  exact ⟨e, he, fun c hc => h c (hp c hc)⟩

/-- Running a plain (non-image) command that succeeds. -/
theorem execCmd_plain_ok (env : Env) (c : Cmd) (hc : isImageCmd c = false)
    (hok : env.cmdOk c = true) (w : World) :
    execCmd env c w = (.ok (env.out c), { w with trace := w.trace ++ [c] }) := by
  cases c <;> simp [execCmd, hok] <;> simp [isImageCmd] at hc

/-- Running a plain (non-image) command that fails. -/
theorem execCmd_plain_err (env : Env) (c : Cmd) (hc : isImageCmd c = false)
    (hok : env.cmdOk c = false) (w : World) :
    execCmd env c w = (.err (env.errMsg c), { w with trace := w.trace ++ [c] }) := by
  cases c <;> simp [execCmd, hok] <;> simp [isImageCmd] at hc

/-- `findDockerPath` always succeeds, changes only the trace (by shell
lookups) and the cached binary path. -/
theorem findDockerPath_run (env : Env) (w : World) :
    ∃ p w', findDockerPath env w = (.ok p, w') ∧ PresCore w w' ∧
      TraceExt w w' (fun c => c = Cmd.whichDocker) := by
  unfold findDockerPath
  simp only [mBind_run, getW_run]
  cases hdp : w.dockerPath with
  | some p =>
      exact ⟨some p, w, by simp, presCore_refl w, traceExt_refl w _⟩
  | none =>
      cases hf : (dockerPathsFor env.platform).find? env.fsOk with
      | some p =>
          refine ⟨some p, { w with dockerPath := some p }, by simp, ?_, ?_⟩
          · exact ⟨rfl, rfl, rfl, rfl, rfl, rfl⟩
          · exact ⟨[], by simp, by simp⟩
      | none =>
          cases hok : env.cmdOk .whichDocker with
          | false =>
              refine ⟨none, { w with trace := w.trace ++ [.whichDocker] }, ?_, ?_, ?_⟩
              · simp [attempt_run, mBind_run,
                      execCmd_plain_err env .whichDocker rfl hok w]
              · exact ⟨rfl, rfl, rfl, rfl, rfl, rfl⟩
              · exact ⟨[.whichDocker], rfl, by simp⟩
          | true =>
              by_cases hne : jsTrim (env.out .whichDocker) = ""
              · refine ⟨none, { w with trace := w.trace ++ [.whichDocker] }, ?_, ?_, ?_⟩
                · simp [attempt_run, mBind_run,
                        execCmd_plain_ok env .whichDocker rfl hok w, hne]
                · exact ⟨rfl, rfl, rfl, rfl, rfl, rfl⟩
                · exact ⟨[.whichDocker], rfl, by simp⟩
              · refine ⟨some (jsTrim (env.out .whichDocker)),
                  { w with trace := w.trace ++ [.whichDocker],
                           dockerPath := some (jsTrim (env.out .whichDocker)) }, ?_, ?_, ?_⟩
                · simp [attempt_run, mBind_run,
                        execCmd_plain_ok env .whichDocker rfl hok w, hne]
                · exact ⟨rfl, rfl, rfl, rfl, rfl, rfl⟩
                · exact ⟨[.whichDocker], rfl, by simp⟩

/-- `execCommand` on a non-image command: the value is the trimmed
stdout (or the rejection), the state changes only by the trace and the
cached binary path. -/
theorem execCommand_run (env : Env) (c : Cmd) (hc : isImageCmd c = false) (w : World) :
    ∃ w', execCommand env c w =
        ((if env.cmdOk c then MRes.ok (jsTrim (env.out c)) else MRes.err (env.errMsg c)), w')
      ∧ PresCore w w' ∧ TraceExt w w' (fun x => x = Cmd.whichDocker ∨ x = c) := by
  unfold execCommand
  cases hsd : startsWithDocker c with
  | false =>
      cases hok : env.cmdOk c with
      | false =>
          refine ⟨{ w with trace := w.trace ++ [c] }, ?_, ?_, ?_⟩
          · simp [hok, mBind_run, execCmd_plain_err env c hc hok w]
          · exact ⟨rfl, rfl, rfl, rfl, rfl, rfl⟩
          · exact ⟨[c], rfl, by simp⟩
      | true =>
          refine ⟨{ w with trace := w.trace ++ [c] }, ?_, ?_, ?_⟩
          · simp [hok, mBind_run, execCmd_plain_ok env c hc hok w]
          · exact ⟨rfl, rfl, rfl, rfl, rfl, rfl⟩
          · exact ⟨[c], rfl, by simp⟩
  | true =>
      obtain ⟨p, w1, hfd, hpres1, hext1⟩ := findDockerPath_run env w
      cases hok : env.cmdOk c with
      | false =>
          refine ⟨{ w1 with trace := w1.trace ++ [c] }, ?_, ?_, ?_⟩
          · simp [hok, mBind_run, hfd, execCmd_plain_err env c hc hok w1]
          · exact presCore_trans hpres1 ⟨rfl, rfl, rfl, rfl, rfl, rfl⟩
          · exact traceExt_trans
              (traceExt_mono (fun x hx => Or.inl hx) hext1)
              ⟨[c], rfl, by simp⟩
      | true =>
          refine ⟨{ w1 with trace := w1.trace ++ [c] }, ?_, ?_, ?_⟩
          · simp [hok, mBind_run, hfd, execCmd_plain_ok env c hc hok w1]
          · exact presCore_trans hpres1 ⟨rfl, rfl, rfl, rfl, rfl, rfl⟩
          · exact traceExt_trans
              (traceExt_mono (fun x hx => Or.inl hx) hext1)
              ⟨[c], rfl, by simp⟩

/-- Running the current revision's health resolver: its value is the
closed form `resolveHealthMain`, and it touches nothing but the trace
and the cached binary path. -/
theorem ghm_run (env : Env) (s : String) (w : World) :
    ∃ w', getServiceHealthMain env s w = (.ok (resolveHealthMain env s), w') ∧
      PresCore w w' := by
  obtain ⟨w1, he1, hp1, _⟩ := execCommand_run env (.inspectCmd (getContainerName s)) rfl w
  unfold getServiceHealthMain
  cases hok : env.cmdOk (.inspectCmd (getContainerName s)) with
  | false =>
      rw [hok] at he1
      simp only [if_false, Bool.false_eq_true] at he1
      refine ⟨w1, ?_, hp1⟩
      simp [attempt_run, mBind_run, he1, resolveHealthMain, hok]
  | true =>
      rw [hok] at he1
      simp only [if_true] at he1
      by_cases hnf : (jsTrim (env.out (.inspectCmd (getContainerName s))) = "not-found" ∨
          jsInc (jsTrim (env.out (.inspectCmd (getContainerName s)))) "Error: No such object" = true)
      · refine ⟨w1, ?_, hp1⟩
        simp [attempt_run, mBind_run, he1, resolveHealthMain, hok, hnf]
      · cases hjr : env.jsonRunning (jsTrim (env.out (.inspectCmd (getContainerName s)))) with
        | none =>
            refine ⟨w1, ?_, hp1⟩
            simp [attempt_run, mBind_run, he1, resolveHealthMain, hok, hnf, hjr]
        | some isRunning =>
            cases isRunning with
            | false =>
                refine ⟨w1, ?_, hp1⟩
                simp [attempt_run, mBind_run, he1, resolveHealthMain, hok, hnf, hjr]
            | true =>
                obtain ⟨w2, he2, hp2, _⟩ :=
                  execCommand_run env (.healthFmt (getContainerName s)) rfl w1
                cases hok2 : env.cmdOk (.healthFmt (getContainerName s)) with
                | false =>
                    rw [hok2] at he2
                    simp only [if_false, Bool.false_eq_true] at he2
                    refine ⟨w2, ?_, presCore_trans hp1 hp2⟩
                    simp [attempt_run, mBind_run, he1, he2, resolveHealthMain,
                          hok, hnf, hjr, hok2]
                | true =>
                    rw [hok2] at he2
                    simp only [if_true] at he2
                    refine ⟨w2, ?_, presCore_trans hp1 hp2⟩
                    by_cases h1 : jsToLower (jsTrim (jsTrim (env.out (.healthFmt (getContainerName s))))) = "healthy"
                    · simp [attempt_run, mBind_run, he1, he2, resolveHealthMain,
                            hok, hnf, hjr, hok2, h1]
                    · by_cases h2 : jsToLower (jsTrim (jsTrim (env.out (.healthFmt (getContainerName s))))) = "unhealthy"
                      · simp [attempt_run, mBind_run, he1, he2, resolveHealthMain,
                              hok, hnf, hjr, hok2, h1, h2]
                      · by_cases h3 : jsToLower (jsTrim (jsTrim (env.out (.healthFmt (getContainerName s))))) = "starting"
                        · simp [attempt_run, mBind_run, he1, he2, resolveHealthMain,
                                hok, hnf, hjr, hok2, h1, h2, h3]
                        · by_cases h4 : s = "storage-activator"
                          · subst h4
                            simp [attempt_run, mBind_run, he1, he2, resolveHealthMain,
                                  hok, hnf, hjr, hok2, h1, h2, h3]
                          · simp [attempt_run, mBind_run, he1, he2, resolveHealthMain,
                                  hok, hnf, hjr, hok2, h1, h2, h3, h4]

/-- The current resolver reports `unhealthy` only when the engine-native
health status string is literally `unhealthy`. -/
theorem resolve_unhealthy_char (env : Env) (s : String)
    (h : resolveHealthMain env s = .unhealthy) :
    jsToLower (jsTrim (jsTrim (env.out (.healthFmt (getContainerName s))))) = "unhealthy" := by
  unfold resolveHealthMain at h
  cases c1 : env.cmdOk (.inspectCmd (getContainerName s)) with
  | false => simp [c1] at h
  | true =>
      simp only [c1, Bool.not_true, Bool.false_eq_true, if_false] at h
      by_cases c2 : (jsTrim (env.out (.inspectCmd (getContainerName s))) = "not-found" ∨
          jsInc (jsTrim (env.out (.inspectCmd (getContainerName s)))) "Error: No such object" = true)
      · simp [c2] at h
      · simp only [c2, if_false] at h
        cases c3 : env.jsonRunning (jsTrim (env.out (.inspectCmd (getContainerName s)))) with
        | none => simp [c3] at h
        | some b =>
            cases b with
            | false => simp [c3] at h
            | true =>
                simp only [c3] at h
                cases c4 : env.cmdOk (.healthFmt (getContainerName s)) with
                | false => simp [c4] at h
                | true =>
                    simp only [c4, Bool.not_true, Bool.false_eq_true, if_false] at h
                    by_cases d1 : jsToLower (jsTrim (jsTrim (env.out (.healthFmt (getContainerName s))))) = "healthy"
                    · simp [d1] at h
                    · by_cases d2 : jsToLower (jsTrim (jsTrim (env.out (.healthFmt (getContainerName s))))) = "unhealthy"
                      · exact d2
                      · by_cases d3 : jsToLower (jsTrim (jsTrim (env.out (.healthFmt (getContainerName s))))) = "starting"
                        · simp [d1, d2, d3] at h
                        · by_cases d4 : s = "storage-activator"
                          · subst d4
                            simp [d1, d2, d3] at h
                          · simp [d1, d2, d3, d4] at h

/-! ## C7: no demotion to `unhealthy` without a conclusive native signal -/

/-- C7: for a service whose container exists and is running (the inspect
command succeeds, is not `not-found`, and parses with `Running = true`):
a native health status of `starting` resolves to `starting`; an absent /
unrecognized native status resolves to `healthy` for the
`storage-activator` helper and to `starting` for every other service;
and the resolver returns `unhealthy` only when the native status is
literally `unhealthy` — so neither a missing native signal nor any
failed probe can demote a service to `unhealthy`. -/
theorem c7_health_resolution (env : Env) (w : World) (s : String) :
    (env.cmdOk (.inspectCmd (getContainerName s)) = true →
     ¬(jsTrim (env.out (.inspectCmd (getContainerName s))) = "not-found" ∨
        jsInc (jsTrim (env.out (.inspectCmd (getContainerName s)))) "Error: No such object" = true) →
     env.jsonRunning (jsTrim (env.out (.inspectCmd (getContainerName s)))) = some true →
     env.cmdOk (.healthFmt (getContainerName s)) = true →
     ((jsToLower (jsTrim (jsTrim (env.out (.healthFmt (getContainerName s))))) = "starting" →
        (getServiceHealthMain env s w).1 = .ok .starting)
      ∧ (jsToLower (jsTrim (jsTrim (env.out (.healthFmt (getContainerName s))))) ≠ "healthy" →
         jsToLower (jsTrim (jsTrim (env.out (.healthFmt (getContainerName s))))) ≠ "unhealthy" →
         jsToLower (jsTrim (jsTrim (env.out (.healthFmt (getContainerName s))))) ≠ "starting" →
         (getServiceHealthMain env s w).1 =
           .ok (if s = "storage-activator" then Health.healthy else Health.starting))))
    ∧ ((getServiceHealthMain env s w).1 = .ok .unhealthy →
       jsToLower (jsTrim (jsTrim (env.out (.healthFmt (getContainerName s))))) = "unhealthy") := by
  obtain ⟨w', hrun, _⟩ := ghm_run env s w
  constructor
  · intro hok hnf hjr hok2
    constructor
    · intro hst
      rw [hrun]
      unfold resolveHealthMain
      simp [hok, hnf, hjr, hok2, hst]
    · intro n1 n2 n3
      rw [hrun]
      unfold resolveHealthMain
      by_cases h4 : s = "storage-activator"
      · subst h4
        simp [hok, hnf, hjr, hok2, n1, n2, n3]
      · simp [hok, hnf, hjr, hok2, n1, n2, n3, h4]
  · intro hu
    rw [hrun] at hu
    simp only [MRes.ok.injEq] at hu
    exact resolve_unhealthy_char env s hu

/-- Witness for C7: a native `starting` resolves to `starting`dash; an
absent native status resolves to `starting` for `graphd` and to
`healthy` for `storage-activator`; the `unhealthy` verdict is certified
to come from a native `unhealthy`. -/
theorem c7_witness :
    (getServiceHealthMain envNativeStarting "metad" w0).1 = .ok .starting
    ∧ (getServiceHealthMain envNativeAbsent "graphd" w0).1 = .ok .starting
    ∧ (getServiceHealthMain envNativeAbsent "storage-activator" w0).1 = .ok .healthy
    ∧ jsToLower (jsTrim (jsTrim (envNativeUnhealthy.out (.healthFmt (getContainerName "metad")))))
        = "unhealthy" := by
  refine ⟨?_, ?_, ?_, ?_⟩
  · exact ((c7_health_resolution envNativeStarting w0 "metad").1
      (by decide) (by decide) (by decide) (by decide)).1 (by decide)
  · have := ((c7_health_resolution envNativeAbsent w0 "graphd").1
      (by decide) (by decide) (by decide) (by decide)).2
      (by decide) (by decide) (by decide)
    simpa using this
  · have := ((c7_health_resolution envNativeAbsent w0 "storage-activator").1
      (by decide) (by decide) (by decide) (by decide)).2
      (by decide) (by decide) (by decide)
    simpa using this
  · exact (c7_health_resolution envNativeUnhealthy w0 "metad").2 (by decide)

/-- Running one service branch of the current status query: its value is
the closed form `entryPureMain` at the entry clock, and it touches
nothing but the trace and the cached binary path. -/
theorem statusEntry_run (env : Env) (s : String) (cfg : ServiceConfig) (w : World) :
    ∃ w', statusEntryMain env s cfg w = (.ok (entryPureMain env s cfg w.now), w')
      ∧ PresCore w w' := by
  obtain ⟨w1, he1, hp1, _⟩ := execCommand_run env (.inspectCmd (getContainerName s)) rfl w
  unfold statusEntryMain
  cases hok : env.cmdOk (.inspectCmd (getContainerName s)) with
  | false =>
      rw [hok] at he1
      simp only [Bool.false_eq_true, if_false] at he1
      refine ⟨w1, ?_, hp1⟩
      simp [attempt_run, mBind_run, he1, entryPureMain, hok, hp1.1]
  | true =>
      rw [hok] at he1
      simp only [if_true] at he1
      by_cases hnf : (jsTrim (jsTrim (env.out (.inspectCmd (getContainerName s)))) = "not-found" ∨
          jsInc (jsTrim (jsTrim (env.out (.inspectCmd (getContainerName s))))) "Error: No such object" = true)
      · refine ⟨w1, ?_, hp1⟩
        simp [attempt_run, mBind_run, he1, entryPureMain, hok, hnf, hp1.1]
      · cases hjr : env.jsonRunning (jsTrim (jsTrim (env.out (.inspectCmd (getContainerName s))))) with
        | none =>
            refine ⟨w1, ?_, hp1⟩
            simp [attempt_run, mBind_run, he1, entryPureMain, hok, hnf, hjr, hp1.1]
        | some b =>
            cases b with
            | false =>
                refine ⟨w1, ?_, hp1⟩
                simp [attempt_run, mBind_run, he1, entryPureMain, hok, hnf, hjr, hp1.1]
            | true =>
                obtain ⟨w2, hg, hp2⟩ := ghm_run env s w1
                cases hsok : env.cmdOk (.statsCmd (getContainerName s)) with
                | false =>
                    obtain ⟨w3, he3, hp3, _⟩ :=
                      execCommand_run env (.statsCmd (getContainerName s)) rfl w2
                    rw [hsok] at he3
                    simp only [Bool.false_eq_true, if_false] at he3
                    refine ⟨w3, ?_, presCore_trans hp1 (presCore_trans hp2 hp3)⟩
                    simp [attempt_run, mBind_run, he1, hg, he3, entryPureMain,
                          hok, hnf, hjr, hsok, hp1.1, hp2.1, hp3.1]
                | true =>
                    obtain ⟨w3, he3, hp3, _⟩ :=
                      execCommand_run env (.statsCmd (getContainerName s)) rfl w2
                    rw [hsok] at he3
                    simp only [if_true] at he3
                    refine ⟨w3, ?_, presCore_trans hp1 (presCore_trans hp2 hp3)⟩
                    simp [attempt_run, mBind_run, he1, hg, he3, entryPureMain,
                          hok, hnf, hjr, hsok, hp1.1, hp2.1, hp3.1]

/-- Running `verifyComposeFileMain`: its value is `verifyPure` of the
entry cache and clock, and it touches nothing but the compose-file
cache. -/
theorem verify_run (env : Env) (w : World) :
    ∃ w', verifyComposeFileMain env w = (.ok (verifyPure env w.composeFileCache w.now), w')
      ∧ w'.now = w.now ∧ w'.images = w.images
      ∧ w'.servicesStarting = w.servicesStarting
      ∧ w'.lastServiceStatus = w.lastServiceStatus
      ∧ w'.imageCheckCache = w.imageCheckCache
      ∧ w'.trace = w.trace ∧ w'.dockerPath = w.dockerPath := by
  unfold verifyComposeFileMain verifyComposeFileFresh verifyPure
  cases hc : w.composeFileCache with
  | some pce =>
      by_cases hv : (pce.1 = composeFilePathC ∧ w.now - pce.2.1 < composeCacheMs)
      · exact ⟨w, by simp [mBind_run, hc, hv], rfl, rfl, rfl, rfl, rfl, rfl, rfl⟩
      · by_cases hf : env.fsOk composeFilePathC
        · refine ⟨{ w with composeFileCache := some (composeFilePathC, w.now, env.composeContentOk) }, ?_, rfl, rfl, rfl, rfl, rfl, rfl, rfl⟩
          simp [mBind_run, hc, hv, hf]
        · refine ⟨{ w with composeFileCache := some (composeFilePathC, w.now, false) }, ?_, rfl, rfl, rfl, rfl, rfl, rfl, rfl⟩
          simp [mBind_run, hc, hv, hf]
  | none =>
      by_cases hf : env.fsOk composeFilePathC
      · refine ⟨{ w with composeFileCache := some (composeFilePathC, w.now, env.composeContentOk) }, ?_, rfl, rfl, rfl, rfl, rfl, rfl, rfl⟩
        simp [mBind_run, hc, hf]
      · refine ⟨{ w with composeFileCache := some (composeFilePathC, w.now, false) }, ?_, rfl, rfl, rfl, rfl, rfl, rfl, rfl⟩
        simp [mBind_run, hc, hf]

/-- Running the current checker's `checkDockerSystem`: its value is the
closed form `sysStatusPure`, and it touches nothing but the trace and
the cached binary path; the trace extension contains no image-load
command. -/
theorem cdsB_run (env : Env) (w : World) :
    ∃ w', checkDockerSystemB env w = (.ok (sysStatusPure env), w') ∧ PresCore w w'
      ∧ TraceExt w w' (fun x => isLoadCmd x = false) := by
  obtain ⟨w1, he1, hp1, ht1⟩ := execCommand_run env .dockerVersion rfl w
  have ht1' : TraceExt w w1 (fun x => isLoadCmd x = false) :=
    traceExt_mono (fun x hx => by rcases hx with rfl | rfl <;> rfl) ht1
  unfold checkDockerSystemB
  cases h1 : env.cmdOk .dockerVersion with
  | false =>
      rw [h1] at he1
      simp only [Bool.false_eq_true, if_false] at he1
      refine ⟨w1, ?_, hp1, ht1'⟩
      simp [attempt_run, mBind_run, he1, sysStatusPure, h1]
  | true =>
      rw [h1] at he1
      simp only [if_true] at he1
      obtain ⟨w2, he2, hp2, ht2⟩ := execCommand_run env .dockerInfo rfl w1
      have ht2' : TraceExt w1 w2 (fun x => isLoadCmd x = false) :=
        traceExt_mono (fun x hx => by rcases hx with rfl | rfl <;> rfl) ht2
      cases h2 : env.cmdOk .dockerInfo with
      | false =>
          rw [h2] at he2
          simp only [Bool.false_eq_true, if_false] at he2
          refine ⟨w2, ?_, presCore_trans hp1 hp2, traceExt_trans ht1' ht2'⟩
          simp [attempt_run, mBind_run, tryOpt, M.pure, M.bind, he1, he2,
                sysStatusPure, h1, h2]
      | true =>
          rw [h2] at he2
          simp only [if_true] at he2
          obtain ⟨w3, he3, hp3, ht3⟩ := execCommand_run env .composeVersion rfl w2
          have ht3' : TraceExt w2 w3 (fun x => isLoadCmd x = false) :=
            traceExt_mono (fun x hx => by rcases hx with rfl | rfl <;> rfl) ht3
          cases h3 : env.cmdOk .composeVersion with
          | true =>
              rw [h3] at he3
              simp only [if_true] at he3
              refine ⟨w3, ?_, presCore_trans hp1 (presCore_trans hp2 hp3),
                traceExt_trans ht1' (traceExt_trans ht2' ht3')⟩
              simp [attempt_run, mBind_run, tryOpt, M.pure, M.bind, he1, he2, he3,
                    sysStatusPure, h1, h2, h3]
          | false =>
              rw [h3] at he3
              simp only [Bool.false_eq_true, if_false] at he3
              obtain ⟨w4, he4, hp4, ht4⟩ := execCommand_run env .composeLegacyVersion rfl w3
              have ht4' : TraceExt w3 w4 (fun x => isLoadCmd x = false) :=
                traceExt_mono (fun x hx => by rcases hx with rfl | rfl <;> rfl) ht4
              cases h4 : env.cmdOk .composeLegacyVersion with
              | true =>
                  rw [h4] at he4
                  simp only [if_true] at he4
                  refine ⟨w4, ?_,
                    presCore_trans hp1 (presCore_trans hp2 (presCore_trans hp3 hp4)),
                    traceExt_trans ht1' (traceExt_trans ht2' (traceExt_trans ht3' ht4'))⟩
                  simp [attempt_run, mBind_run, tryOpt, M.pure, M.bind, he1, he2, he3,
                        he4, sysStatusPure, h1, h2, h3, h4]
              | false =>
                  rw [h4] at he4
                  simp only [Bool.false_eq_true, if_false] at he4
                  refine ⟨w4, ?_,
                    presCore_trans hp1 (presCore_trans hp2 (presCore_trans hp3 hp4)),
                    traceExt_trans ht1' (traceExt_trans ht2' (traceExt_trans ht3' ht4'))⟩
                  simp [attempt_run, mBind_run, tryOpt, M.pure, M.bind, he1, he2, he3,
                        he4, sysStatusPure, h1, h2, h3, h4]

/-- Running the current `checkDockerStatus`: its value is
`checkVerdict`. -/
theorem checkStatus_run (env : Env) (w : World) :
    ∃ w', checkDockerStatusMain env w = (.ok (checkVerdict env), w') ∧ PresCore w w'
      ∧ TraceExt w w' (fun x => isLoadCmd x = false) := by
  obtain ⟨w1, he, hp, ht⟩ := cdsB_run env w
  refine ⟨w1, ?_, hp, ht⟩
  unfold checkDockerStatusMain checkVerdict
  simp [attempt_run, mBind_run, he]

/-- Running the per-service evaluation over a whole list. -/
theorem statusList_run (env : Env) (l : List (String × ServiceConfig)) (w : World) :
    ∃ w', statusListMain env l w =
      (.ok (l.map (fun p => (p.1, entryPureMain env p.1 p.2 w.now))), w')
      ∧ PresCore w w' := by
  induction l generalizing w with
  | nil => exact ⟨w, by simp [statusListMain], presCore_refl w⟩
  | cons p rest ih =>
      obtain ⟨w1, he, hp⟩ := statusEntry_run env p.1 p.2 w
      obtain ⟨w2, hr, hp2⟩ := ih w1
      rw [hp.1] at hr
      refine ⟨w2, ?_, presCore_trans hp hp2⟩
      simp [statusListMain, mBind_run, he, hr]

/-- The snapshot returned by the current `getServicesStatus` is the
closed form `gssValueMain` of the entry state: the early guards
(compose file, daemon, `compose ps`) yield the synthesized
all-`not_created` map, otherwise every declared service is evaluated;
the cache-during-start branch cannot fire because the cache is cleared
at entry. -/
theorem gss_run (env : Env) (w : World) :
    (getServicesStatusMain env w).1 = gssValueMain env w := by
  obtain ⟨w1, hv0, hn1, hi1, hs1, hl1, hic1, htr1, hdp1⟩ :=
    verify_run env { w with lastServiceStatus := [] }
  have hv : verifyComposeFileMain env { w with lastServiceStatus := [] } =
      (.ok (verifyPure env w.composeFileCache w.now), w1) := hv0
  have hn1' : w1.now = w.now := hn1
  have hl1' : w1.lastServiceStatus = [] := hl1
  unfold getServicesStatusMain gssBodyMain gssValueMain
  simp only [mBind_run, modifyW_run]
  rw [hv]
  cases hb : verifyPure env w.composeFileCache w.now with
  | false =>
      simp [mBind_run, getW_run, hn1']
  | true =>
      simp only [Bool.not_true, Bool.false_eq_true, if_false]
      obtain ⟨w2, hcs, hcp, _⟩ := checkStatus_run env w1
      simp only [mBind_run]
      rw [hcs]
      cases hcv : checkVerdict env with
      | false =>
          simp [mBind_run, getW_run, hcp.1, hn1']
      | true =>
          simp only [Bool.not_true, Bool.false_eq_true, if_false]
          obtain ⟨w3, he3, hp3, _⟩ := execCommand_run env .composePs rfl w2
          cases hps : env.cmdOk .composePs with
          | false =>
              rw [hps] at he3
              simp only [Bool.false_eq_true, if_false] at he3
              have htry : tryOpt (execCommand env .composePs) w2 = (.ok none, w3) := by
                simp [tryOpt, attempt_run, M.bind, M.pure, he3]
              simp only [mBind_run]
              rw [htry]
              simp [mBind_run, getW_run, modifyW_run, hp3.1, hcp.1, hn1']
          | true =>
              rw [hps] at he3
              simp only [if_true] at he3
              have htry : tryOpt (execCommand env .composePs) w2 =
                  (.ok (some (jsTrim (env.out .composePs))), w3) := by
                simp [tryOpt, attempt_run, M.bind, M.pure, he3]
              simp only [mBind_run]
              rw [htry]
              by_cases hemp : jsTrim (jsTrim (env.out .composePs)) = ""
              · simp [mBind_run, getW_run, modifyW_run, hemp, hp3.1, hcp.1, hn1']
              · simp only [mBind_run, getW_run, hemp, if_false]
                have hlss3 : w3.lastServiceStatus = [] := by
                  rw [hp3.2.2.2.1, hcp.2.2.2.1, hl1']
                obtain ⟨w4, hsl, hsp⟩ := statusList_run env serviceConfigs w3
                have hn3 : w3.now = w.now := by
                  rw [hp3.1, hcp.1, hn1']
                rw [hn3] at hsl
                simp [mBind_run, getW_run, modifyW_run, hlss3, hsl, hemp]

/-- The name field of a per-service entry always comes from its
configuration. -/
theorem entryPure_name (env : Env) (s : String) (cfg : ServiceConfig) (n : Nat) :
    (entryPureMain env s cfg n).name = cfg.name := by
  unfold entryPureMain notCreatedEntry
  dsimp only
  split_ifs <;>
    first
      | (cases env.jsonRunning (jsTrim (jsTrim (env.out (.inspectCmd (getContainerName s))))) with
          | none => rfl
          | some b => cases b <;> rfl)
      | rfl

/-- A per-service entry has non-null metrics exactly when its lifecycle
status is `running`. -/
theorem entryPure_inv (env : Env) (s : String) (cfg : ServiceConfig) (n : Nat) :
    ((entryPureMain env s cfg n).metrics ≠ none ↔
      (entryPureMain env s cfg n).status = .running) := by
  unfold entryPureMain notCreatedEntry
  dsimp only
  split_ifs <;>
    first
      | (cases env.jsonRunning (jsTrim (jsTrim (env.out (.inspectCmd (getContainerName s))))) with
          | none => simp
          | some b => cases b <;> simp)
      | simp

/-! ## C10: the status query is total with exactly the four services -/

/-- C10: every snapshot returned by the current `getServicesStatus` —
on the happy path, with the compose file absent, with the runtime
unreachable, or after an internal error (the embedding's outer catch) —
has exactly one entry per declared service, in declaration order, and
every entry's `name` field matches its key.  Throwing is impossible by
construction: the embedded operation is a total function whose outer
catch converts any internal error into the synthesized snapshot. -/
theorem c10_status_total (env : Env) (w : World) :
    ((getServicesStatusMain env w).1).map Prod.fst =
      ["metad", "storaged", "graphd", "studio"]
    ∧ ((getServicesStatusMain env w).1).all (fun p => p.2.name == p.1) = true := by
  rw [gss_run]
  unfold gssValueMain
  constructor
  · split_ifs <;>
      simp [notCreatedMap, serviceConfigs, cfgMetad, cfgStoraged, cfgGraphd, cfgStudio,
            notCreatedEntry]
  · split_ifs <;>
      simp [notCreatedMap, serviceConfigs, cfgMetad, cfgStoraged, cfgGraphd, cfgStudio,
            notCreatedEntry, entryPure_name]

/-! ## C5: metrics are non-null exactly for running services -/

/-- C5: in every snapshot returned by the current `getServicesStatus`,
an entry's `metrics` field is non-null if and only if its lifecycle
status is `running`. -/
theorem c5_metrics_iff_running (env : Env) (w : World) (p : String × ServiceStatus)
    (hm : p ∈ (getServicesStatusMain env w).1) :
    (p.2.metrics ≠ none ↔ p.2.status = .running) := by
  rw [gss_run] at hm
  unfold gssValueMain at hm
  split_ifs at hm <;>
    [skip; skip; skip; skip;
     obtain ⟨q, hq, rfl⟩ := List.mem_map.mp hm] <;>
    first
      | (exact entryPure_inv env q.1 q.2 w.now)
      | (obtain ⟨q, hq, rfl⟩ := List.mem_map.mp hm
         simp [notCreatedEntry])

/-- Witness for C5 at a concrete snapshot entry. -/
theorem c5_witness :
    ((notCreatedEntry cfgMetad 0).metrics ≠ none ↔
      (notCreatedEntry cfgMetad 0).status = .running) :=
  c5_metrics_iff_running envNoCompose w0 ("metad", notCreatedEntry cfgMetad 0) (by decide)

/-! ## C6: a missing container reports `unknown` health, `not_created` status -/

/-- Counterexample to C6 as stated: when the container does not exist,
the health resolver of the current revision returns `unknown`, not
`not_created`. -/
theorem c6_counterexample :
    (getServiceHealthMain envNoContainer "metad" w0).1 = .ok .unknown
    ∧ Health.unknown ≠ Health.notCreated :=
  ⟨by decide, by decide⟩

/-- C6 (amended): if the container for a service does not exist (its
`docker inspect` yields the `not-found` guard output), the health
resolver returns `unknown`, and the service's entry in the snapshot
returned by `getServicesStatus` has lifecycle status `not_created` with
null metrics. -/
theorem c6_missing_container (env : Env) (w : World) (s : String)
    (h : env.out (.inspectCmd (getContainerName s)) = "not-found") :
    (getServiceHealthMain env s w).1 = .ok .unknown
    ∧ ∀ p ∈ (getServicesStatusMain env w).1, p.1 = s →
        p.2.status = .notCreated ∧ p.2.metrics = none := by
  have htrim : jsTrim "not-found" = "not-found" := by decide
  constructor
  · obtain ⟨w', hrun, _⟩ := ghm_run env s w
    rw [hrun]
    have hres : resolveHealthMain env s = .unknown := by
      unfold resolveHealthMain
      dsimp only
      rw [h, htrim]
      cases hok : env.cmdOk (.inspectCmd (getContainerName s)) <;> simp
    rw [hres]
  · intro p hp hps
    rw [gss_run] at hp
    unfold gssValueMain at hp
    have hent : ∀ cfg n, entryPureMain env s cfg n = notCreatedEntry cfg n := by
      intro cfg n
      unfold entryPureMain
      dsimp only
      rw [h, htrim, htrim]
      cases hok : env.cmdOk (.inspectCmd (getContainerName s)) <;> simp
    split_ifs at hp <;> obtain ⟨q, hq, rfl⟩ := List.mem_map.mp hp
    · simp [notCreatedEntry]
    · simp [notCreatedEntry]
    · simp [notCreatedEntry]
    · simp [notCreatedEntry]
    · simp only at hps
      rw [hps, hent q.2 w.now]
      simp [notCreatedEntry]

/-- Witness for C6 (amended) at a concrete environment without
containers. -/
theorem c6_witness :
    (getServiceHealthMain envNoContainer "storaged" w0).1 = .ok .unknown :=
  (c6_missing_container envNoContainer w0 "storaged" rfl).1

/-! ## C8: the staged runtime availability check -/

/-- C8: the current checker's `checkDockerSystem` follows the staged
algorithm, returning (never throwing) `not installed` when the version
query fails, `installed but not running` when the engine-info query
fails, and the degraded `compose not installed` value with an
explanatory error when both compose version queries fail while the
engine runs. -/
theorem c8_staged_system_check (env : Env) (w : World) :
    (env.cmdOk .dockerVersion = false →
      (checkDockerSystemB env w).1 =
        .ok { isInstalled := false, isRunning := false, version := none,
              compose := none, error := some (env.errMsg .dockerVersion) })
    ∧ (env.cmdOk .dockerVersion = true → env.cmdOk .dockerInfo = false →
      (checkDockerSystemB env w).1 =
        .ok { isInstalled := true, isRunning := false,
              version := some (jsTrim (env.out .dockerVersion)), compose := none,
              error := some "Docker daemon is not running" })
    ∧ (env.cmdOk .dockerVersion = true → env.cmdOk .dockerInfo = true →
       env.cmdOk .composeVersion = false → env.cmdOk .composeLegacyVersion = false →
      (checkDockerSystemB env w).1 =
        .ok { isInstalled := true, isRunning := true,
              version := some (jsTrim (env.out .dockerVersion)),
              compose := some { isInstalled := false, version := none },
              error := some "Docker Compose not found" }) := by
  obtain ⟨w', he, _, _⟩ := cdsB_run env w
  rw [he]
  refine ⟨?_, ?_, ?_⟩
  · intro h1
    unfold sysStatusPure
    simp [h1]
  · intro h1 h2
    unfold sysStatusPure
    simp [h1, h2]
  · intro h1 h2 h3 h4
    unfold sysStatusPure
    simp [h1, h2, h3, h4]

/-- Witness for C8 at three concrete environments. -/
theorem c8_witness :
    (checkDockerSystemB envNoDocker w0).1 =
      .ok { isInstalled := false, isRunning := false, version := none,
            compose := none, error := some "command failed" }
    ∧ (checkDockerSystemB envDaemonDown w0).1 =
      .ok { isInstalled := true, isRunning := false, version := some "",
            compose := none, error := some "Docker daemon is not running" }
    ∧ (checkDockerSystemB envNoComposeTool w0).1 =
      .ok { isInstalled := true, isRunning := true, version := some "",
            compose := some { isInstalled := false, version := none },
            error := some "Docker Compose not found" } :=
  ⟨(c8_staged_system_check envNoDocker w0).1 rfl,
   (c8_staged_system_check envDaemonDown w0).2.1 rfl rfl,
   (c8_staged_system_check envNoComposeTool w0).2.2 rfl rfl rfl rfl⟩

/-- One-step unfolding of the wait loop at positive fuel. -/
theorem waitLoop_step (env : Env) (s : String) (cfg : ServiceConfig)
    (interval n : Nat) :
    waitLoopMain env s cfg interval (n + 1) = (do
      let health ← getServiceHealthMain env s
      if health = .healthy then pure true
      else if health = .starting then do
        sleepM interval
        waitLoopMain env s cfg interval n
      else do
        let hit ←
          if env.platform = .darwin then
            attempt
              (do
                let o ← execCommand env (.curlCmd cfg.healthCheckPort)
                pure (jsInc o "ok" || jsInc o "healthy"))
              (fun _ => pure false)
          else pure false
        if hit then pure true
        else do
          sleepM interval
          waitLoopMain env s cfg interval n) := rfl

/-- Unfolding of the wait loop at exhausted fuel (the final
`starting`-or-`healthy` check). -/
theorem waitLoop_base (env : Env) (s : String) (cfg : ServiceConfig)
    (interval : Nat) :
    waitLoopMain env s cfg interval 0 = (do
      let health ← getServiceHealthMain env s
      pure (decide (health = .starting) || decide (health = .healthy))) := rfl

/-- Running the current wait loop with at least one attempt: under the
stationary environment its verdict is the closed form
`waitVerdictMain` — in particular a service whose resolver forever
reports `starting` passes the wait (the post-budget check accepts
`starting`). -/
theorem waitLoop_succ_run (env : Env) (s : String) (cfg : ServiceConfig)
    (interval : Nat) (n : Nat) (w : World) :
    ∃ w', waitLoopMain env s cfg interval (n + 1) w =
      (.ok (waitVerdictMain env s cfg), w') := by
  induction n generalizing w with
  | zero =>
      obtain ⟨w1, hg, _⟩ := ghm_run env s w
      rw [waitLoop_step]
      by_cases h1 : resolveHealthMain env s = .healthy
      · exact ⟨w1, by simp [mBind_run, hg, h1, waitVerdictMain]⟩
      · by_cases h2 : resolveHealthMain env s = .starting
        · obtain ⟨w2, hg2, _⟩ := ghm_run env s { w1 with now := w1.now + interval }
          exact ⟨w2, by simp [mBind_run, sleepM_run, modifyW_run, waitLoop_base, hg,
            hg2, h1, h2, waitVerdictMain]⟩
        · by_cases hd : env.platform = .darwin
          · obtain ⟨w2, hc, _, _⟩ := execCommand_run env (.curlCmd cfg.healthCheckPort) rfl w1
            cases hcu : env.cmdOk (.curlCmd cfg.healthCheckPort) with
            | false =>
                rw [hcu] at hc
                simp only [Bool.false_eq_true, if_false] at hc
                obtain ⟨w3, hg3, _⟩ := ghm_run env s { w2 with now := w2.now + interval }
                exact ⟨w3, by simp [mBind_run, attempt_run, sleepM_run, modifyW_run,
                  waitLoop_base, hg, hc, hg3, h1, h2, hd, waitVerdictMain, probeHit, hcu]⟩
            | true =>
                rw [hcu] at hc
                simp only [if_true] at hc
                by_cases hm : (jsInc (jsTrim (env.out (.curlCmd cfg.healthCheckPort))) "ok" ||
                    jsInc (jsTrim (env.out (.curlCmd cfg.healthCheckPort))) "healthy") = true
                · exact ⟨w2, by simp [mBind_run, attempt_run, hg, hc,
                    h1, h2, hd, hm, waitVerdictMain, probeHit, hcu]⟩
                · obtain ⟨w3, hg3, _⟩ := ghm_run env s { w2 with now := w2.now + interval }
                  exact ⟨w3, by simp [mBind_run, attempt_run, sleepM_run, modifyW_run,
                    waitLoop_base, hg, hc, hg3, h1, h2, hd, hm, waitVerdictMain,
                    probeHit, hcu]⟩
          · obtain ⟨w2, hg2, _⟩ := ghm_run env s { w1 with now := w1.now + interval }
            exact ⟨w2, by simp [mBind_run, sleepM_run, modifyW_run, waitLoop_base, hg,
              hg2, h1, h2, hd, waitVerdictMain, probeHit]⟩
  | succ n ih =>
      obtain ⟨w1, hg, _⟩ := ghm_run env s w
      rw [waitLoop_step]
      by_cases h1 : resolveHealthMain env s = .healthy
      · exact ⟨w1, by simp [mBind_run, hg, h1, waitVerdictMain]⟩
      · by_cases h2 : resolveHealthMain env s = .starting
        · obtain ⟨w2, hrec⟩ := ih { w1 with now := w1.now + interval }
          exact ⟨w2, by simp [mBind_run, sleepM_run, modifyW_run, hg, h1, h2, hrec]⟩
        · by_cases hd : env.platform = .darwin
          · obtain ⟨w2, hc, _, _⟩ := execCommand_run env (.curlCmd cfg.healthCheckPort) rfl w1
            cases hcu : env.cmdOk (.curlCmd cfg.healthCheckPort) with
            | false =>
                rw [hcu] at hc
                simp only [Bool.false_eq_true, if_false] at hc
                obtain ⟨w3, hrec⟩ := ih { w2 with now := w2.now + interval }
                exact ⟨w3, by simp [mBind_run, attempt_run, sleepM_run, modifyW_run,
                  hg, hc, hrec, h1, h2, hd]⟩
            | true =>
                rw [hcu] at hc
                simp only [if_true] at hc
                by_cases hm : (jsInc (jsTrim (env.out (.curlCmd cfg.healthCheckPort))) "ok" ||
                    jsInc (jsTrim (env.out (.curlCmd cfg.healthCheckPort))) "healthy") = true
                · exact ⟨w2, by simp [mBind_run, attempt_run, hg, hc,
                    h1, h2, hd, hm, waitVerdictMain, probeHit, hcu]⟩
                · obtain ⟨w3, hrec⟩ := ih { w2 with now := w2.now + interval }
                  exact ⟨w3, by simp [mBind_run, attempt_run, sleepM_run, modifyW_run,
                    hg, hc, hrec, h1, h2, hd, hm]⟩
          · obtain ⟨w2, hrec⟩ := ih { w1 with now := w1.now + interval }
            exact ⟨w2, by simp [mBind_run, sleepM_run, modifyW_run, hg,
              hrec, h1, h2, hd]⟩

/-- Running the per-service start-wait loop: its result is the closed
form `loopResultPure` (first failing service decides). -/
theorem startLoop_run (env : Env) (l : List (String × ServiceConfig))
    (hl : ∀ p ∈ l, serviceConfigs.lookup p.1 = some p.2) (w : World) :
    ∃ w', startHealthLoopMain env l w = (.ok (loopResultPure env l), w') := by
  induction l generalizing w with
  | nil => exact ⟨w, by simp [startHealthLoopMain, loopResultPure]⟩
  | cons p rest ih =>
      have hp : serviceConfigs.lookup p.1 = some p.2 := hl p (List.mem_cons_self p rest)
      obtain ⟨w1, hwl0⟩ := waitLoop_succ_run env p.1 p.2 2000 59 w
      have hwl : waitLoopMain env p.1 p.2 2000 60 w =
          (.ok (waitVerdictMain env p.1 p.2), w1) := hwl0
      cases hv : waitVerdictMain env p.1 p.2 with
      | true =>
          obtain ⟨w2, hrec⟩ := ih (fun q hq => hl q (List.mem_cons_of_mem _ hq)) w1
          refine ⟨w2, ?_⟩
          simp [startHealthLoopMain, waitForHealthCheckMain, mBind_run, hp, hwl, hv,
                hrec, loopResultPure, List.find?]
      | false =>
          refine ⟨w1, ?_⟩
          simp [startHealthLoopMain, waitForHealthCheckMain, mBind_run, hp, hwl, hv,
                loopResultPure, List.find?]

/-- Running the current `startServices` when initialization, the docker
check, and `docker compose up` all succeed: the result is decided by the
per-service wait verdicts alone. -/
theorem startMain_run (env : Env) (w : World)
    (hinit : env.initOk = true) (hdocker : checkVerdict env = true)
    (hup : env.cmdOk .composeUp = true) :
    (startServicesMain env w).1 = loopResultPure env serviceConfigs := by
  obtain ⟨w1, hcs, _, _⟩ := checkStatus_run env w
  obtain ⟨w2, hup2, _, _⟩ := execCommand_run env .composeUp rfl w1
  rw [hup] at hup2
  simp only [if_true] at hup2
  obtain ⟨w3, hloop⟩ := startLoop_run env serviceConfigs (by decide) w2
  unfold startServicesMain startServicesBodyMain
  simp [mBind_run, hinit, hcs, hdocker, tryRes, attempt_run, M.bind, M.pure,
        hup2, hloop]

/-! ## C2: what the whole-stack start actually returns -/

/-- Counterexample to C2 as stated: with every container running,
`storaged` resolving to `starting` on every poll (never `healthy`), and
the rest healthy, the current `startServices` still returns
`{ success := true }` — the post-budget check of `waitForHealthCheck`
accepts a forever-`starting` service, so success does not require every
service to reach `healthy` within the polling window. -/
theorem c2_counterexample :
    (startServicesMain envStuckStarting wResolved).1 = { success := true, error := none }
    ∧ resolveHealthMain envStuckStarting "storaged" = .starting
    ∧ Health.starting ≠ Health.healthy := by
  refine ⟨?_, by decide, by decide⟩
  rw [startMain_run envStuckStarting wResolved rfl (by decide) rfl]
  decide

/-- C2 (amended): when initialization, the docker check and
`docker compose up` succeed, the result of the current `startServices`
is decided by the per-service wait verdicts in declaration order: it is
success exactly when every service's wait verdict holds (the verdict
accepting `healthy`, `starting`, or a macOS probe hit), and otherwise a
failure naming exactly the first service whose wait failed. -/
theorem c2_start_characterization (env : Env) (w : World)
    (hinit : env.initOk = true) (hdocker : checkVerdict env = true)
    (hup : env.cmdOk .composeUp = true) :
    (startServicesMain env w).1 = loopResultPure env serviceConfigs
    ∧ ((startServicesMain env w).1.success = true ↔
        ∀ p ∈ serviceConfigs, waitVerdictMain env p.1 p.2 = true) := by
  have hmain := startMain_run env w hinit hdocker hup
  refine ⟨hmain, ?_⟩
  rw [hmain]
  unfold loopResultPure
  cases hf : serviceConfigs.find? (fun p => !(waitVerdictMain env p.1 p.2)) with
  | none =>
      simp only [true_iff]
      intro p hp
      have := List.find?_eq_none.mp hf p hp
      simpa using this
  | some q =>
      constructor
      · intro hfalse
        simp at hfalse
      · intro hall
        have h1 := List.find?_some hf
        have h2 := List.mem_of_find?_eq_some hf
        have h3 := hall q h2
        rw [h3] at h1
        simp at h1

/-- Witness for C2 (amended) at a concrete all-healthy environment. -/
theorem c2_witness :
    (startServicesMain envAllHealthy wResolved).1 = { success := true, error := none } :=
  (c2_start_characterization envAllHealthy wResolved rfl (by decide) rfl).1.trans (by decide)

/-! ## C9: provisioning is idempotent after full success -/

/-- The image presence loop never throws. -/
theorem checkImagesGo_ok (env : Env) (l : List (String × String × String)) (w : World) :
    ∃ b w', checkImagesGo env l w = (.ok b, w') := by
  induction l generalizing w with
  | nil => exact ⟨true, w, rfl⟩
  | cons e rest ih =>
      by_cases hm : imageName e ∈ w.images
      · obtain ⟨b, w', hr⟩ := ih { w with trace := w.trace ++ [.imageInspect (imageName e)] }
        exact ⟨b, w', by simp [checkImagesGo, mBind_run, tryOpt, attempt_run, M.bind,
          M.pure, execCmd, hm, hr]⟩
      · exact ⟨false, { w with trace := w.trace ++ [.imageInspect (imageName e)] },
          by simp [checkImagesGo, mBind_run, tryOpt, attempt_run, M.bind, M.pure,
            execCmd, hm]⟩

/-- The image presence loop does not change the engine's image store. -/
theorem checkImagesGo_images (env : Env) (l : List (String × String × String)) (w : World) :
    ((checkImagesGo env l w).2).images = w.images := by
  induction l generalizing w with
  | nil => rfl
  | cons e rest ih =>
      by_cases hm : imageName e ∈ w.images
      · simp [checkImagesGo, mBind_run, tryOpt, attempt_run, M.bind, M.pure, execCmd,
          hm, ih]
      · simp [checkImagesGo, mBind_run, tryOpt, attempt_run, M.bind, M.pure, execCmd,
          hm]

/-- If the presence loop answers `true`, every probed image was already
present. -/
theorem checkImagesGo_true_mem (env : Env) (l : List (String × String × String))
    (w : World) (h : (checkImagesGo env l w).1 = .ok true) :
    ∀ e ∈ l, imageName e ∈ w.images := by
  induction l generalizing w with
  | nil => intro e he; cases he
  | cons e rest ih =>
      by_cases hm : imageName e ∈ w.images
      · intro e' he'
        rcases List.mem_cons.mp he' with rfl | hr
        · exact hm
        · have h' : (checkImagesGo env rest
              { w with trace := w.trace ++ [.imageInspect (imageName e)] }).1 = .ok true := by
            simpa [checkImagesGo, mBind_run, tryOpt, attempt_run, M.bind, M.pure,
              execCmd, hm] using h
          exact ih _ h' e' hr
      · exfalso
        simp [checkImagesGo, mBind_run, tryOpt, attempt_run, M.bind, M.pure, execCmd,
          hm] at h

/-- If every probed image is present, the presence loop answers `true`
and appends exactly the inspect commands to the trace. -/
theorem checkImagesGo_all_present (env : Env) (l : List (String × String × String))
    (w : World) (h : ∀ e ∈ l, imageName e ∈ w.images) :
    checkImagesGo env l w =
      (.ok true, { w with trace := w.trace ++ l.map (fun e => .imageInspect (imageName e)) }) := by
  induction l generalizing w with
  | nil => simp [checkImagesGo]
  | cons e rest ih =>
      have hm : imageName e ∈ w.images := h e (List.mem_cons_self e rest)
      have hrest := ih { w with trace := w.trace ++ [.imageInspect (imageName e)] }
        (fun e' he' => h e' (List.mem_cons_of_mem _ he'))
      simp [checkImagesGo, mBind_run, tryOpt, attempt_run, M.bind, M.pure, execCmd,
        hm, hrest, List.append_assoc]

/-- The image load loop never throws. -/
theorem loadImagesGo_ok (env : Env) (l : List (String × String × String)) (w : World) :
    ∃ b w', loadImagesGo env l w = (.ok b, w') := by
  induction l generalizing w with
  | nil => exact ⟨true, w, rfl⟩
  | cons e rest ih =>
      cases hok : env.cmdOk (.imageLoad (tarPath e.1)) with
      | true =>
          obtain ⟨b, w', hr⟩ := ih
            { w with trace := w.trace ++ [.imageLoad (tarPath e.1)],
                     images := w.images ++ env.archive (tarPath e.1) }
          exact ⟨b, w', by simp [loadImagesGo, mBind_run, tryOpt, attempt_run, M.bind,
            M.pure, execCmd, hok, hr]⟩
      | false =>
          exact ⟨false, { w with trace := w.trace ++ [.imageLoad (tarPath e.1)] },
            by simp [loadImagesGo, mBind_run, tryOpt, attempt_run, M.bind, M.pure,
              execCmd, hok]⟩

/-- The image load loop only ever grows the engine's image store. -/
theorem loadImagesGo_mono (env : Env) (l : List (String × String × String)) (w : World) :
    w.images ⊆ ((loadImagesGo env l w).2).images := by
  induction l generalizing w with
  | nil => exact fun x hx => hx
  | cons e rest ih =>
      cases hok : env.cmdOk (.imageLoad (tarPath e.1)) with
      | true =>
          have hsub : w.images ⊆ w.images ++ env.archive (tarPath e.1) :=
            List.subset_append_left _ _
          have := ih { w with trace := w.trace ++ [.imageLoad (tarPath e.1)],
                              images := w.images ++ env.archive (tarPath e.1) }
          intro x hx
          have hx2 := this (hsub hx)
          simpa [loadImagesGo, mBind_run, tryOpt, attempt_run, M.bind, M.pure,
            execCmd, hok] using hx2
      | false =>
          intro x hx
          simpa [loadImagesGo, mBind_run, tryOpt, attempt_run, M.bind, M.pure,
            execCmd, hok] using hx

/-- If the load loop answers `true` and each archive contains its
manifest image, every manifest image is present afterwards. -/
theorem loadImagesGo_true_mem (env : Env) (l : List (String × String × String))
    (w : World) (harch : ∀ e ∈ l, imageName e ∈ env.archive (tarPath e.1))
    (h : (loadImagesGo env l w).1 = .ok true) :
    ∀ e ∈ l, imageName e ∈ ((loadImagesGo env l w).2).images := by
  induction l generalizing w with
  | nil => intro e he; cases he
  | cons e rest ih =>
      cases hok : env.cmdOk (.imageLoad (tarPath e.1)) with
      | false =>
          exfalso
          simp [loadImagesGo, mBind_run, tryOpt, attempt_run, M.bind, M.pure, execCmd,
            hok] at h
      | true =>
          have hw1 : (loadImagesGo env (e :: rest) w) = loadImagesGo env rest
              { w with trace := w.trace ++ [.imageLoad (tarPath e.1)],
                       images := w.images ++ env.archive (tarPath e.1) } := by
            simp [loadImagesGo, mBind_run, tryOpt, attempt_run, M.bind, M.pure,
              execCmd, hok]
          rw [hw1] at h ⊢
          intro e' he'
          rcases List.mem_cons.mp he' with rfl | hr
          · have hmem : imageName e' ∈ w.images ++ env.archive (tarPath e'.1) :=
              List.mem_append_right _ (harch e' (List.mem_cons_self e' rest))
            exact loadImagesGo_mono env rest _ hmem
          · exact ih _ (fun q hq => harch q (List.mem_cons_of_mem _ hq)) h e' hr

/-- A fully successful `ensureImagesLoaded` implies: the docker gate
passes, the manifest was readable, and every manifest image is present
in the resulting engine state (either it already was, or its load
succeeded and its archive contained it). -/
theorem ensure_true_present (env : Env) (w : World)
    (harch : ∀ e ∈ env.manifest.getD [], imageName e ∈ env.archive (tarPath e.1))
    (h1 : (ensureImagesLoadedB env w).1 = .ok true) :
    ((sysStatusPure env).isInstalled && (sysStatusPure env).isRunning) = true
    ∧ ∃ entries, env.manifest = some entries
        ∧ ∀ e ∈ entries, imageName e ∈ ((ensureImagesLoadedB env w).2).images := by
  obtain ⟨wa, hca, hpa, _⟩ := cdsB_run env w
  cases hg : ((sysStatusPure env).isInstalled && (sysStatusPure env).isRunning) with
  | false =>
      exfalso
      unfold ensureImagesLoadedB at h1
      simp only [mBind_run] at h1
      rw [hca] at h1
      simp [hg, M.pure] at h1
  | true =>
      cases hman : env.manifest with
      | none =>
          exfalso
          obtain ⟨wc, hcc, _, _⟩ := cdsB_run env wa
          have hgi := (Bool.and_eq_true _ _).mp hg
          have hreq : checkRequiredImagesB env wa = (.ok false, wa) := by
            simp [checkRequiredImagesB, hman, attempt_run, mThrow]
          have hload : loadImagesB env wa = (.ok false, wc) := by
            unfold loadImagesB
            simp [attempt_run, mBind_run, hcc, hg, hgi.1, hgi.2, hman, mThrow, M.pure]
          unfold ensureImagesLoadedB at h1
          simp only [mBind_run] at h1
          rw [hca] at h1
          simp [hg, hreq, hload, M.pure] at h1
      | some entries =>
          obtain ⟨b, wb, hchk⟩ := checkImagesGo_ok env entries wa
          have hreq : checkRequiredImagesB env wa = (.ok b, wb) := by
            unfold checkRequiredImagesB
            rw [hman]
            simp [attempt_run, hchk]
          cases b with
          | true =>
              have hens : ensureImagesLoadedB env w = (.ok true, wb) := by
                unfold ensureImagesLoadedB
                simp only [mBind_run]
                rw [hca]
                simp [hg, hreq, M.pure]
              refine ⟨rfl, entries, rfl, ?_⟩
              rw [hens]
              intro e he
              have hmem := checkImagesGo_true_mem env entries wa (by rw [hchk]) e he
              have himg := checkImagesGo_images env entries wa
              rw [hchk] at himg
              rw [himg]
              exact hmem
          | false =>
              obtain ⟨wc, hcc, hpc, _⟩ := cdsB_run env wb
              obtain ⟨b2, wd, hload⟩ := loadImagesGo_ok env entries wc
              have hloadB : loadImagesB env wb = (.ok b2, wd) := by
                have hgi := (Bool.and_eq_true _ _).mp hg
                unfold loadImagesB
                simp only [attempt_run, mBind_run]
                rw [hcc]
                simp [hg, hgi.1, hgi.2, hman, hload]
              have hens : ensureImagesLoadedB env w = (.ok b2, wd) := by
                unfold ensureImagesLoadedB
                simp only [mBind_run]
                rw [hca]
                simp [hg, hreq, hloadB]
              rw [hens] at h1
              simp only [MRes.ok.injEq] at h1
              cases b2 with
              | false => exact absurd h1 (by decide)
              | true =>
                  refine ⟨rfl, entries, rfl, ?_⟩
                  rw [hens]
                  have harch' : ∀ e ∈ entries, imageName e ∈ env.archive (tarPath e.1) := by
                    intro e' he'
                    have := harch e'
                    rw [hman] at this
                    exact this he'
                  have := loadImagesGo_true_mem env entries wc harch' (by rw [hload])
                  rw [hload] at this
                  exact this

/-- `ensureImagesLoaded` on an engine that already holds every manifest
image: it answers `true` and the call issues no image-load command
(the trace grows only by the system checks and per-image inspects). -/
theorem ensure_present_run (env : Env) (w : World) (entries : List (String × String × String))
    (hg : ((sysStatusPure env).isInstalled && (sysStatusPure env).isRunning) = true)
    (hman : env.manifest = some entries)
    (hpres : ∀ e ∈ entries, imageName e ∈ w.images) :
    ∃ w', ensureImagesLoadedB env w = (.ok true, w')
      ∧ TraceExt w w' (fun c => isLoadCmd c = false) := by
  obtain ⟨wb, hcb, hpb, htb⟩ := cdsB_run env w
  have hpres' : ∀ e ∈ entries, imageName e ∈ wb.images := by
    intro e he
    rw [hpb.2.1]
    exact hpres e he
  have hchk := checkImagesGo_all_present env entries wb hpres'
  have hreq : checkRequiredImagesB env wb = (.ok true, { wb with trace := wb.trace ++ entries.map (fun e => Cmd.imageInspect (imageName e)) }) := by
    unfold checkRequiredImagesB
    rw [hman]
    simp [attempt_run, hchk]
  refine ⟨{ wb with trace := wb.trace ++ entries.map (fun e => Cmd.imageInspect (imageName e)) }, ?_, ?_⟩
  · unfold ensureImagesLoadedB
    simp only [mBind_run]
    rw [hcb]
    simp [hg, hreq, M.pure]
  · refine traceExt_trans htb ⟨entries.map (fun e => .imageInspect (imageName e)), rfl, ?_⟩
    intro c hc
    obtain ⟨e, _, rfl⟩ := List.mem_map.mp hc
    rfl

/-- C9: if `ensureImagesLoaded` returns `true` (and each image archive
does contain its manifest image), an immediately following call also
returns `true` and invokes no `docker load` command: it short-circuits
at the per-image presence check. -/
theorem c9_provisioning_idempotent (env : Env) (w : World)
    (harch : ∀ e ∈ env.manifest.getD [], imageName e ∈ env.archive (tarPath e.1))
    (h1 : (ensureImagesLoadedB env w).1 = .ok true) :
    (ensureImagesLoadedB env (ensureImagesLoadedB env w).2).1 = .ok true
    ∧ ∀ c ∈ ((ensureImagesLoadedB env (ensureImagesLoadedB env w).2).2).trace.drop
        (((ensureImagesLoadedB env w).2).trace.length), isLoadCmd c = false := by
  obtain ⟨hg, entries, hman, hpres⟩ := ensure_true_present env w harch h1
  obtain ⟨w2, hrun, ext, hext, hP⟩ :=
    ensure_present_run env ((ensureImagesLoadedB env w).2) entries hg hman hpres
  rw [hrun]
  refine ⟨rfl, ?_⟩
  intro c hc
  rw [hext, List.drop_left] at hc
  exact hP c hc

/-- Witness for C9 at a concrete one-image manifest with the image
already loaded. -/
theorem c9_witness :
    (ensureImagesLoadedB envImages (ensureImagesLoadedB envImages wImages).2).1 = .ok true :=
  (c9_provisioning_idempotent envImages wImages (by decide) (by decide)).1
